import Mathlib

/-!
Verification development for the MathEX expression interpreter
(`src/expression.c`): a shallow embedding of its value model, evaluator,
tokenizer and compiler, together with theorems settling the specification
claims about them.

Modelling conventions, used throughout:

* The C value type is the host `float`. It is embedded as an exact value:
  NaN and the two infinities are explicit constructors and every finite
  value is carried as a rational number. Rounding of host float arithmetic
  is not modelled; all concrete computations in this file stay within the
  exactly representable range. IEEE negative zero compares equal to zero in
  every C expression of the source, so both zeros collapse to `Num.fin 0`.
* Machine integers (`int`) are `Int` with explicit two's-complement
  reduction modulo 2^32 where the bit-level view matters.
* Variables have stable identity: the C environment allocates one cell per
  distinct name and never moves it, so the C handle (a pointer to the cell)
  is modelled by the variable's name, and handle equality coincides with
  name equality.
-/

set_option maxRecDepth 8000

namespace MathEX

/-- The numeric value type (host `float` of the C source), embedded exactly:
finite values are rationals, NaN and the infinities are explicit. `inf true`
is positive infinity, `inf false` negative infinity. -/
inductive Num where
  | nan : Num
  | inf (pos : Bool) : Num
  | fin (q : ℚ) : Num
deriving DecidableEq, Repr

/-!
Rational arithmetic helpers. The library's `Rat.add`, `Rat.sub`, `Rat.mul`
and `Rat.inv` are deliberately irreducible, which would keep concrete runs
of the interpreter from evaluating inside the kernel; these equivalent
definitions build the (normalized) result directly with `mkRat` from the
textbook cross-multiplication formulas, so every computation below reduces.
-/

/-- Rational addition: `a/b + c/d = (ad + cb)/(bd)`. -/
def qadd (a b : ℚ) : ℚ := mkRat (a.num * b.den + b.num * a.den) (a.den * b.den)

/-- Rational subtraction: `a/b - c/d = (ad - cb)/(bd)`. -/
def qsub (a b : ℚ) : ℚ := mkRat (a.num * b.den - b.num * a.den) (a.den * b.den)

/-- Rational multiplication: `(a/b)(c/d) = (ac)/(bd)`. -/
def qmul (a b : ℚ) : ℚ := mkRat (a.num * b.num) (a.den * b.den)

/-- Rational inverse (`qinv 0 = 0`; never applied at 0 below). -/
def qinv (a : ℚ) : ℚ :=
  if a.num < 0 then mkRat (-(a.den : Int)) a.num.natAbs
  else mkRat (a.den : Int) a.num.natAbs

/-- Rational division. -/
def qdiv (a b : ℚ) : ℚ := qmul a (qinv b)

/-- Rational power with a natural exponent. -/
def qpow (x : ℚ) : Nat → ℚ
  | 0 => 1
  | n + 1 => qmul (qpow x n) x

/-- Rational absolute value. -/
def qabs (x : ℚ) : ℚ := if x.num < 0 then -x else x

/-- IEEE equality `==`: NaN compares unequal to everything (and the model has
a single zero, so the IEEE `-0.0 == 0.0` identification is built in). -/
def numEqB : Num → Num → Bool
  | .nan, _ => false
  | _, .nan => false
  | .inf a, .inf b => a == b
  | .inf _, .fin _ => false
  | .fin _, .inf _ => false
  | .fin a, .fin b => a == b

/-- IEEE `!=`: the negation of `==`, hence true whenever either side is NaN. -/
def numNeB (a b : Num) : Bool := !numEqB a b

/-- IEEE `<`: false whenever either side is NaN. -/
def numLtB : Num → Num → Bool
  | .nan, _ => false
  | _, .nan => false
  | .inf a, .inf b => !a && b
  | .inf a, .fin _ => !a
  | .fin _, .inf b => b
  | .fin a, .fin b => decide (a < b)

/-- IEEE `<=`: false whenever either side is NaN. -/
def numLeB : Num → Num → Bool
  | .nan, _ => false
  | _, .nan => false
  | .inf a, .inf b => !a || b
  | .inf a, .fin _ => !a
  | .fin _, .inf b => b
  | .fin a, .fin b => decide (a ≤ b)

/-- IEEE `>` coincides with the flipped `<` (both are false on NaN). -/
def numGtB (a b : Num) : Bool := numLtB b a

/-- IEEE `>=` coincides with the flipped `<=`. -/
def numGeB (a b : Num) : Bool := numLeB b a

/-- C `isnan`. -/
def numIsNanB : Num → Bool
  | .nan => true
  | _ => false

/-- Float negation. -/
def Num.neg : Num → Num
  | .nan => .nan
  | .inf p => .inf (!p)
  | .fin q => .fin (-q)

/-- Float addition (exact on finite values; `inf + -inf` is NaN). -/
def Num.add : Num → Num → Num
  | .nan, _ => .nan
  | _, .nan => .nan
  | .inf p, .inf q => if p == q then .inf p else .nan
  | .inf p, .fin _ => .inf p
  | .fin _, .inf q => .inf q
  | .fin a, .fin b => .fin (qadd a b)

/-- Float subtraction. -/
def Num.sub : Num → Num → Num
  | .nan, _ => .nan
  | _, .nan => .nan
  | .inf p, .inf q => if p == q then .nan else .inf p
  | .inf p, .fin _ => .inf p
  | .fin _, .inf q => .inf (!q)
  | .fin a, .fin b => .fin (qsub a b)

/-- Float multiplication (`inf * 0` is NaN). -/
def Num.mul : Num → Num → Num
  | .nan, _ => .nan
  | _, .nan => .nan
  | .inf p, .inf q => .inf (p == q)
  | .inf p, .fin b => if b = 0 then .nan else .inf (p == decide (0 < b))
  | .fin a, .inf q => if a = 0 then .nan else .inf (q == decide (0 < a))
  | .fin a, .fin b => .fin (qmul a b)

/-- Float division: `x/0` follows IEEE (0/0 is NaN, otherwise a signed
infinity; the single model zero is the positive one). -/
def Num.div : Num → Num → Num
  | .nan, _ => .nan
  | _, .nan => .nan
  | .inf _, .inf _ => .nan
  | .inf p, .fin b => .inf (p == decide (0 ≤ b))
  | .fin _, .inf _ => .fin 0
  | .fin a, .fin b =>
    if b = 0 then (if a = 0 then .nan else .inf (decide (0 < a)))
    else .fin (qdiv a b)

/-- Truncation of a rational toward zero, as C's `(int)` cast performs on
in-range values (`Int.tdiv` is C-style truncating division). -/
def qtrunc (q : ℚ) : ℤ := Int.tdiv q.num (q.den : ℤ)

/-- Model of the host `fmodf`: `fmod(a, b) = a - trunc(a/b) * b` for finite
operands, NaN for an infinite first or zero second operand, and `a` when only
the second operand is infinite. -/
def Num.fmod : Num → Num → Num
  | .nan, _ => .nan
  | _, .nan => .nan
  | .inf _, _ => .nan
  | .fin a, .inf _ => .fin a
  | .fin a, .fin b =>
    if b = 0 then .nan else .fin (qsub a (qmul b (mkRat (qtrunc (qdiv a b)) 1)))

/-- Model of the host `powf`. `pow(x, ±0) = 1` for every `x` including NaN
(C99 Annex F). A finite base raised to an integer exponent produces the exact
value; a finite non-integer exponent generally has an irrational value that
the exact model cannot carry and is mapped to NaN — the development only ever
applies `powf` at integer exponents. -/
def Num.powf (a b : Num) : Num :=
  match b with
  | .fin q =>
    if q = 0 then .fin 1
    else
      match a with
      | .nan => .nan
      | .inf p =>
        if 0 < q then
          (if !p && q.den == 1 && q.num % 2 == 1 then .inf false else .inf true)
        else .fin 0
      | .fin x =>
        if q.den = 1 then
          if 0 ≤ q.num then .fin (qpow x q.num.toNat)
          else if x = 0 then .inf true
          else .fin (qinv (qpow x (-q.num).toNat))
        else .nan
  | .nan =>
    match a with
    | .fin x => if x = 1 then .fin 1 else .nan
    | _ => .nan
  | .inf t =>
    match a with
    | .nan => .nan
    | .inf _ => if t then .inf true else .fin 0
    | .fin x =>
      if x = 1 || x = -1 then .fin 1
      else if (decide (1 < qabs x)) == t then .inf true
      else .fin 0

/-- The two's-complement 32-bit image of an integer (reduction mod 2^32). -/
def toTwos (i : Int) : Nat := (i.emod 4294967296).toNat

/-- Reads a 32-bit two's-complement image back as a signed integer. -/
def ofTwos (n : Nat) : Int :=
  if n < 2147483648 then (n : Int) else (n : Int) - 4294967296

/-- C `int & int` on the 32-bit two's-complement representation. -/
def int32_and (a b : Int) : Int := ofTwos (Nat.land (toTwos a) (toTwos b))

/-- C `int | int`. -/
def int32_or (a b : Int) : Int := ofTwos (Nat.lor (toTwos a) (toTwos b))

/-- C `int ^ int`. -/
def int32_xor (a b : Int) : Int := ofTwos (Nat.xor (toTwos a) (toTwos b))

/-- C `~int` (bitwise complement of the 32-bit representation). -/
def int32_not (a : Int) : Int := ofTwos (4294967295 - toTwos a)

/-- C `int << int`. Shift counts outside 0..31 and shifts of negative values
are undefined behavior in C; the model fixes the behavior of the targeted
hosts (x86: the count is taken mod 32, the result wraps mod 2^32). -/
def int32_shl (a b : Int) : Int :=
  ofTwos (toTwos a * 2 ^ (toTwos b % 32) % 4294967296)

/-- C `int >> int` for the targeted hosts: arithmetic shift, i.e. floor
division by a power of two, with the count taken mod 32. -/
def int32_shr (a b : Int) : Int := Int.fdiv a (2 ^ (toTwos b % 32))

/-- Mirror of `to_int` (expression.c lines 188-196): NaN becomes 0 and the
infinite cases produce `INT_MAX * isinf(x)`, where `isinf` is 1 on positive
and -1 on negative infinity (the glibc/GCC `__builtin_isinf_sign` behavior
this code is written against) — so negative infinity maps to `-INT_MAX`.
The finite case is C's `(int)x`, truncation toward zero (undefined behavior
outside the 32-bit range; modelled as plain truncation). -/
def to_int : Num → Int
  | .nan => 0
  | .inf p => 2147483647 * (if p then 1 else -1)
  | .fin q => qtrunc q

/-- The implicit C conversion of an `int` back to the `float` return value
(exact in this model; host rounding of integers above 2^24 is not modelled). -/
def intToNum (i : Int) : Num := .fin (mkRat i 1)

/-- Mirror of `enum expr_type` (expression.c lines 14-51). -/
inductive ExprType where
  | OP_UNKNOWN
  | OP_UNARY_MINUS
  | OP_UNARY_LOGICAL_NOT
  | OP_UNARY_BITWISE_NOT
  | OP_POWER
  | OP_DIVIDE
  | OP_MULTIPLY
  | OP_REMAINDER
  | OP_PLUS
  | OP_MINUS
  | OP_SHL
  | OP_SHR
  | OP_LT
  | OP_LE
  | OP_GT
  | OP_GE
  | OP_EQ
  | OP_NE
  | OP_BITWISE_AND
  | OP_BITWISE_OR
  | OP_BITWISE_XOR
  | OP_LOGICAL_AND
  | OP_LOGICAL_OR
  | OP_ASSIGN
  | OP_COMMA
  | OP_CONST
  | OP_VAR
  | OP_FUNC
deriving DecidableEq, Repr

/-- Mirror of the `prec` array (expression.c lines 53-54), indexed by the
enum in declaration order. -/
def prec : ExprType → Int
  | .OP_UNKNOWN => 0
  | .OP_UNARY_MINUS => 1
  | .OP_UNARY_LOGICAL_NOT => 1
  | .OP_UNARY_BITWISE_NOT => 1
  | .OP_POWER => 2
  | .OP_DIVIDE => 2
  | .OP_MULTIPLY => 2
  | .OP_REMAINDER => 2
  | .OP_PLUS => 3
  | .OP_MINUS => 3
  | .OP_SHL => 4
  | .OP_SHR => 4
  | .OP_LT => 5
  | .OP_LE => 5
  | .OP_GT => 5
  | .OP_GE => 5
  | .OP_EQ => 5
  | .OP_NE => 5
  | .OP_BITWISE_AND => 6
  | .OP_BITWISE_OR => 7
  | .OP_BITWISE_XOR => 8
  | .OP_LOGICAL_AND => 9
  | .OP_LOGICAL_OR => 10
  | .OP_ASSIGN => 11
  | .OP_COMMA => 12
  | .OP_CONST => 0
  | .OP_VAR => 0
  | .OP_FUNC => 0

/-- Mirror of `expr_is_unary` (expression.c lines 66-70). -/
def expr_is_unary (op : ExprType) : Bool :=
  op == .OP_UNARY_MINUS || op == .OP_UNARY_LOGICAL_NOT ||
    op == .OP_UNARY_BITWISE_NOT

/-- Mirror of `expr_is_binary` (expression.c lines 72-76). -/
def expr_is_binary (op : ExprType) : Bool :=
  !expr_is_unary op && op != .OP_CONST && op != .OP_VAR && op != .OP_FUNC &&
    op != .OP_UNKNOWN

/-- Mirror of `expr_prec` (expression.c lines 78-83): should the operator on
top of the stack (`a`) be bound before pushing the new operator (`b`)? -/
def expr_prec (a b : ExprType) : Bool :=
  let left := expr_is_binary a && a != .OP_ASSIGN && a != .OP_POWER &&
    a != .OP_COMMA
  (left && decide (prec a ≥ prec b)) || decide (prec a > prec b)

/-- Mirror of the `OPS` table (expression.c lines 91-108), in the same order;
the trailing one-character unary entries are the lexer-only ones. -/
def OPS : List (List Char × ExprType) :=
  [(['-', 'u'], .OP_UNARY_MINUS), (['!', 'u'], .OP_UNARY_LOGICAL_NOT),
   (['^', 'u'], .OP_UNARY_BITWISE_NOT), (['*', '*'], .OP_POWER),
   (['*'], .OP_MULTIPLY), (['/'], .OP_DIVIDE), (['%'], .OP_REMAINDER),
   (['+'], .OP_PLUS), (['-'], .OP_MINUS), (['<', '<'], .OP_SHL),
   (['>', '>'], .OP_SHR), (['<'], .OP_LT), (['<', '='], .OP_LE),
   (['>'], .OP_GT), (['>', '='], .OP_GE), (['=', '='], .OP_EQ),
   (['!', '='], .OP_NE), (['&'], .OP_BITWISE_AND), (['|'], .OP_BITWISE_OR),
   (['^'], .OP_BITWISE_XOR), (['&', '&'], .OP_LOGICAL_AND),
   (['|', '|'], .OP_LOGICAL_OR), (['='], .OP_ASSIGN), ([','], .OP_COMMA),
   (['-'], .OP_UNARY_MINUS), (['!'], .OP_UNARY_LOGICAL_NOT),
   (['^'], .OP_UNARY_BITWISE_NOT)]

/-- Mirror of `expr_op` (expression.c lines 110-119): first table entry whose
string is exactly the first `len` characters of `s`, with `unary = 1`
restricting to unary entries, `unary = 0` to non-unary ones and `unary = -1`
not filtering. -/
def expr_op (s : List Char) (len : Nat) (unary : Int) : ExprType :=
  match OPS.find? (fun p =>
      p.1.length == len && s.take len == p.1 &&
        (unary == -1 || (if expr_is_unary p.2 then (1 : Int) else 0) == unary)) with
  | some p => p.2
  | none => .OP_UNKNOWN

/-- The expression tree (`struct expr`). The C node is a tag plus a vector of
children; every operator node the compiler builds carries exactly one child
(unary tags) or exactly two (binary tags), which the constructors bake in.
A node whose shape disagrees with its tag is out-of-bounds undefined behavior
in C and is never constructed; the evaluator sends such values to NaN.
`var` holds the variable's stable handle (its name, see `expr_var`); `func`
holds the registered function's name and its argument subtrees (per-call
context blocks are not modelled). -/
inductive Expr where
  | unop (t : ExprType) (a : Expr)
  | binop (t : ExprType) (a b : Expr)
  | const (v : Num)
  | var (h : List Char)
  | func (fname : List Char) (args : List Expr)
deriving Repr

/-- The variable environment: the list of `(name, value)` cells, newest
first, exactly as the C `expr_var_list` singly-linked list stores them. -/
abbrev Env := List (List Char × Num)

/-- Reading a variable cell through its handle. -/
def envGet (vars : Env) (h : List Char) : Num :=
  match vars.find? (fun p => p.1 == h) with
  | some p => p.2
  | none => Num.fin 0

/-- Writing a variable cell through its handle (a write through a handle that
is not in the environment would be a dangling pointer in C; the model leaves
the environment unchanged in that never-exercised case). -/
def envSet : Env → List Char → Num → Env
  | [], _, _ => []
  | p :: rest, h, v => if p.1 = h then (h, v) :: rest else p :: envSet rest h v

/-- Does the environment have a cell with this handle? -/
def envHas (vars : Env) (h : List Char) : Bool :=
  (vars.find? (fun p => p.1 == h)).isSome

/-- Mirror of `isfirstvarchr` (expression.c lines 85-86): byte value at least
`'@'` (64) excluding `'^'` and `'|'`, plus `'$'`. Input bytes are modelled as
ASCII characters. -/
def isfirstvarchr (c : Char) : Bool :=
  (decide (64 ≤ c.toNat) && c != '^' && c != '|') || c == '$'

/-- Mirror of `isvarchr` (expression.c lines 87-89): `isfirstvarchr` plus
`'#'` and the digits. -/
def isvarchr (c : Char) : Bool :=
  (decide (64 ≤ c.toNat) && c != '^' && c != '|') || c == '$' || c == '#' ||
    (decide (48 ≤ c.toNat) && decide (c.toNat ≤ 57))

/-- Mirror of `expr_var` (expression.c lines 166-186): look a name up in the
environment, allocating a zero-initialized cell at the head on a miss. The
returned handle is the cell's name (stable for the environment's lifetime);
`none` mirrors the NULL result for an empty or ill-starting name (the
allocation-failure path is not modelled). -/
def expr_var (vars : Env) (s : List Char) : Option (List Char) × Env :=
  if s.length = 0 || !isfirstvarchr (s.headD ' ') then (none, vars)
  else
    match vars.find? (fun p => p.1 == s) with
    | some p => (some p.1, vars)
    | none => (some s, (s, Num.fin 0) :: vars)

/-- The host-function dispatch seen by the evaluator: the C code calls
`e->param.func.f->f(f, args, context)` with the argument subtrees, and the
callable may read and write variables (it can call `expr_eval` itself), so it
is modelled as an arbitrary state transformer on the environment, keyed by
the function's registered name. -/
def HostF : Type := List Char → List Expr → Env → Num × Env

/-- Mirror of `expr_eval` (expression.c lines 437-537), the recursive tree
walker, with the variable store passed as explicit state. Where C leaves the
evaluation order of the two operands of `+`, `*`, … unspecified, the model
fixes left-then-right (the only order-sensitive cases — `&&`, `||`, `=`,
`,` — are sequenced in C exactly as written here). A node whose tag does not
match its shape falls to the `default:` NaN case. -/
def expr_eval (hf : HostF) : Expr → Env → Num × Env
  | .unop t a, env =>
    match t with
    | .OP_UNARY_MINUS =>
      let p := expr_eval hf a env
      (Num.neg p.1, p.2)
    | .OP_UNARY_LOGICAL_NOT =>
      let p := expr_eval hf a env
      (if numEqB p.1 (Num.fin 0) then Num.fin 1 else Num.fin 0, p.2)
    | .OP_UNARY_BITWISE_NOT =>
      let p := expr_eval hf a env
      (intToNum (int32_not (to_int p.1)), p.2)
    | _ => (Num.nan, env)
  | .binop t a b, env =>
    match t with
    | .OP_POWER =>
      let p := expr_eval hf a env
      let q := expr_eval hf b p.2
      (Num.powf p.1 q.1, q.2)
    | .OP_MULTIPLY =>
      let p := expr_eval hf a env
      let q := expr_eval hf b p.2
      (Num.mul p.1 q.1, q.2)
    | .OP_DIVIDE =>
      let p := expr_eval hf a env
      let q := expr_eval hf b p.2
      (Num.div p.1 q.1, q.2)
    | .OP_REMAINDER =>
      let p := expr_eval hf a env
      let q := expr_eval hf b p.2
      (Num.fmod p.1 q.1, q.2)
    | .OP_PLUS =>
      let p := expr_eval hf a env
      let q := expr_eval hf b p.2
      (Num.add p.1 q.1, q.2)
    | .OP_MINUS =>
      let p := expr_eval hf a env
      let q := expr_eval hf b p.2
      (Num.sub p.1 q.1, q.2)
    | .OP_SHL =>
      let p := expr_eval hf a env
      let q := expr_eval hf b p.2
      (intToNum (int32_shl (to_int p.1) (to_int q.1)), q.2)
    | .OP_SHR =>
      let p := expr_eval hf a env
      let q := expr_eval hf b p.2
      (intToNum (int32_shr (to_int p.1) (to_int q.1)), q.2)
    | .OP_LT =>
      let p := expr_eval hf a env
      let q := expr_eval hf b p.2
      (if numLtB p.1 q.1 then Num.fin 1 else Num.fin 0, q.2)
    | .OP_LE =>
      let p := expr_eval hf a env
      let q := expr_eval hf b p.2
      (if numLeB p.1 q.1 then Num.fin 1 else Num.fin 0, q.2)
    | .OP_GT =>
      let p := expr_eval hf a env
      let q := expr_eval hf b p.2
      (if numGtB p.1 q.1 then Num.fin 1 else Num.fin 0, q.2)
    | .OP_GE =>
      let p := expr_eval hf a env
      let q := expr_eval hf b p.2
      (if numGeB p.1 q.1 then Num.fin 1 else Num.fin 0, q.2)
    | .OP_EQ =>
      let p := expr_eval hf a env
      let q := expr_eval hf b p.2
      (if numEqB p.1 q.1 then Num.fin 1 else Num.fin 0, q.2)
    | .OP_NE =>
      let p := expr_eval hf a env
      let q := expr_eval hf b p.2
      (if numNeB p.1 q.1 then Num.fin 1 else Num.fin 0, q.2)
    | .OP_BITWISE_AND =>
      let p := expr_eval hf a env
      let q := expr_eval hf b p.2
      (intToNum (int32_and (to_int p.1) (to_int q.1)), q.2)
    | .OP_BITWISE_OR =>
      let p := expr_eval hf a env
      let q := expr_eval hf b p.2
      (intToNum (int32_or (to_int p.1) (to_int q.1)), q.2)
    | .OP_BITWISE_XOR =>
      let p := expr_eval hf a env
      let q := expr_eval hf b p.2
      (intToNum (int32_xor (to_int p.1) (to_int q.1)), q.2)
    | .OP_LOGICAL_AND =>
      let p := expr_eval hf a env
      if numNeB p.1 (Num.fin 0) then
        let q := expr_eval hf b p.2
        if numNeB q.1 (Num.fin 0) then (q.1, q.2) else (Num.fin 0, q.2)
      else (Num.fin 0, p.2)
    | .OP_LOGICAL_OR =>
      let p := expr_eval hf a env
      if numNeB p.1 (Num.fin 0) && !numIsNanB p.1 then (p.1, p.2)
      else
        let q := expr_eval hf b p.2
        if numNeB q.1 (Num.fin 0) then (q.1, q.2) else (Num.fin 0, q.2)
    | .OP_ASSIGN =>
      let p := expr_eval hf b env
      match a with
      | .var hh => (p.1, envSet p.2 hh p.1)
      | _ => (p.1, p.2)
    | .OP_COMMA =>
      let p := expr_eval hf a env
      expr_eval hf b p.2
    | _ => (Num.nan, env)
  | .const v, _env => (v, _env)
  | .var h, env => (envGet env h, env)
  | .func fname args, env => hf fname args env

/-- Modelled from the spec: the tokenizer flag constants come from the
repository's header `expression.h`, which is not among the provided sources.
The spec (§4.D) lists the bits `TNUMBER, TWORD, TOPEN, TCLOSE, TOP, UNARY,
COMMA` on one flags word, with the initial flag set allowing number, word and
open-paren; distinct one-bit values are chosen here, and every statement
below depends only on the bits being distinct. The spec's `TOP_LEVEL` check
in the newline rule corresponds to the code's `EXPR_TOP` test
(expression.c line 553). -/
def EXPR_TOP : Nat := 1

/-- Flag bit: an open parenthesis may come next. -/
def EXPR_TOPEN : Nat := 2

/-- Flag bit: a close parenthesis may come next. -/
def EXPR_TCLOSE : Nat := 4

/-- Flag bit: a number may come next. -/
def EXPR_TNUMBER : Nat := 8

/-- Flag bit: a word may come next. -/
def EXPR_TWORD : Nat := 16

/-- Flag bit: the token just produced is a unary operator. -/
def EXPR_UNARY : Nat := 32

/-- Flag bit: newline bookkeeping for the top-level newline-as-comma rule. -/
def EXPR_COMMA : Nat := 64

/-- The initial flag set: number, word and open-paren are legal. -/
def EXPR_TDEFAULT : Nat := EXPR_TOPEN ||| EXPR_TNUMBER ||| EXPR_TWORD

/-- Clears the `EXPR_COMMA` bit of a flags word: C `flags & ~EXPR_COMMA` on
the 32-bit `int` flags, i.e. a mask with every bit but bit 6 set. -/
def clearComma (f : Nat) : Nat := f &&& 4294967231

/-- C `isspace` in the default locale: the space character and the five
control characters 9..13. -/
def cIsSpace (c : Char) : Bool :=
  c.toNat == 32 || (decide (9 ≤ c.toNat) && decide (c.toNat ≤ 13))

/-- C `isdigit`. -/
def cIsDigit (c : Char) : Bool :=
  decide (48 ≤ c.toNat) && decide (c.toNat ≤ 57)

/-- A character the number lexeme loop consumes: a digit or a dot
(expression.c line 571). -/
def cIsNumChar (c : Char) : Bool := c == '.' || cIsDigit c

/-- A character the operator scanning loop consumes (the negated exit tests
of the loop at expression.c lines 604-605). -/
def cIsOpChar (c : Char) : Bool :=
  !isvarchr c && !cIsSpace c && c != '(' && c != ')'

/-- The operator scanning loop of `expr_next_token` (expression.c lines
603-613): starting at offset `i` (the second argument is the suffix of `s`
from that offset, carried so the recursion is structural), while the current
character is an operator character, record in `found` whether the first
`i+1` characters form a known non-unary operator, and stop one character
after the last successful match once a longer match fails. Returns the final
offset and the `found` flag. (The C loop reads `s[i]` before testing
`i < len`; the value read at `i = len` never influences the result, so the
bound — here the empty suffix — is tested first.) -/
def opScan (s : List Char) : Nat → List Char → Bool → Nat × Bool
  | i, [], found => (i, found)
  | i, c :: rest, found =>
    if cIsOpChar c then
      if expr_op s (i + 1) 0 != .OP_UNKNOWN then opScan s (i + 1) rest true
      else if found then (i, found)
      else opScan s (i + 1) rest false
    else (i, found)

/-- Mirror of `expr_next_token` (expression.c lines 539-621). Takes the
remaining input and the flags word; returns the C `int` result — 0 on end of
input, the lexeme length on success, a negative error code otherwise — and
the updated flags word. The C scanning loops read the character before
testing the bound, as described at `opScan`; each loop is rendered by the
equivalent longest-matching-prefix (`List.takeWhile`) computation. -/
def expr_next_token (s : List Char) (flags : Nat) : Int × Nat :=
  match s with
  | [] => (0, flags)
  | c :: _ =>
    if c = '#' then (((s.takeWhile (fun x => x != '\n')).length : Int), flags)
    else if c = '\n' then
      let i := (s.takeWhile cIsSpace).length
      if flags &&& EXPR_TOP ≠ 0 then
        if i = s.length ∨ s.getD i ' ' = ')' then
          ((i : Int), clearComma flags)
        else
          ((i : Int), EXPR_TNUMBER ||| EXPR_TWORD ||| EXPR_TOPEN ||| EXPR_COMMA)
      else ((i : Int), flags)
    else if cIsSpace c then
      (((s.takeWhile (fun x => cIsSpace x && x != '\n')).length : Int), flags)
    else if cIsDigit c then
      if flags &&& EXPR_TNUMBER = 0 then (-1, flags)
      else
        (((s.takeWhile cIsNumChar).length : Int), EXPR_TOP ||| EXPR_TCLOSE)
    else if isfirstvarchr c then
      if flags &&& EXPR_TWORD = 0 then (-2, flags)
      else
        (((s.takeWhile isvarchr).length : Int),
          EXPR_TOP ||| EXPR_TOPEN ||| EXPR_TCLOSE)
    else if c = '(' ∨ c = ')' then
      if c = '(' ∧ flags &&& EXPR_TOPEN ≠ 0 then
        (1, EXPR_TNUMBER ||| EXPR_TWORD ||| EXPR_TOPEN ||| EXPR_TCLOSE)
      else if c = ')' ∧ flags &&& EXPR_TCLOSE ≠ 0 then
        (1, EXPR_TOP ||| EXPR_TCLOSE)
      else (-3, flags)
    else
      if flags &&& EXPR_TOP = 0 then
        if expr_op [c] 1 1 = .OP_UNKNOWN then (-4, flags)
        else (1, EXPR_TNUMBER ||| EXPR_TWORD ||| EXPR_TOPEN ||| EXPR_UNARY)
      else
        let r := opScan s 0 s false
        if !r.2 then (-5, flags)
        else ((r.1 : Int), EXPR_TNUMBER ||| EXPR_TWORD ||| EXPR_TOPEN)

/-- Mirror of `expr_parse_number`'s scanning loop (expression.c lines
126-140): `num` accumulates the digits read so far, `frac` is 0 before a dot
and one more than the number of digits consumed since the dot afterwards,
`digits` counts digits. Any character that is neither a digit nor the first
dot yields NaN. Host float rounding is not modelled: the accumulation is
exact. -/
def parseNumLoop : List Char → ℚ → Nat → Nat → Option (ℚ × Nat × Nat)
  | [], num, frac, digits => some (num, frac, digits)
  | c :: rest, num, frac, digits =>
    if c = '.' ∧ frac = 0 then parseNumLoop rest num 1 digits
    else if cIsDigit c then
      parseNumLoop rest (qadd (qmul num 10) ((c.toNat - 48 : Nat) : ℚ))
        (if frac > 0 then frac + 1 else frac) (digits + 1)
    else none

/-- Mirror of `expr_parse_number` (expression.c lines 121-146): parse the
first `len` characters; a second dot or any other stray character gives NaN,
as does a dot-only lexeme; otherwise the value is the digits scaled down by
the number of digits seen after the dot. -/
def expr_parse_number (s : List Char) (len : Nat) : Num :=
  match parseNumLoop (s.take len) 0 0 0 with
  | none => Num.nan
  | some (num, frac, digits) =>
    let v := if frac > 1 then qdiv num (qpow 10 (frac - 1)) else num
    if digits > 0 then Num.fin v else Num.nan

/-- C `EXPR_PAREN_ALLOWED` (expression.c line 623). -/
def EXPR_PAREN_ALLOWED : Nat := 0

/-- C `EXPR_PAREN_EXPECTED` (expression.c line 624). -/
def EXPR_PAREN_EXPECTED : Nat := 1

/-- C `EXPR_PAREN_FORBIDDEN` (expression.c line 625). -/
def EXPR_PAREN_FORBIDDEN : Nat := 2

/-- Is the node an `OP_VAR` node? (the check of expression.c line 651). -/
def isVarNode : Expr → Bool
  | .var _ => true
  | _ => false

/-- Mirror of `expr_bind` (expression.c lines 627-659): pop one operand for a
unary operator, two for a binary one, and push the formed node; fails on an
unknown operator, underflow, or an `=` whose left operand is not a variable.
Stacks are lists with the top at the head (the C vec pushes and pops at its
end; only the top-end access pattern matters and it is preserved). -/
def expr_bind (s : List Char) (len : Nat) (es : List Expr) :
    Option (List Expr) :=
  let op := expr_op s len (-1)
  if op = .OP_UNKNOWN then none
  else if expr_is_unary op then
    match es with
    | [] => none
    | arg :: esr => some (Expr.unop op arg :: esr)
  else
    match es with
    | b :: a :: esr =>
      if op = .OP_ASSIGN ∧ isVarNode a = false then none
      else some (Expr.binop op a b :: esr)
    | _ => none

/-- Mirror of `expr_const` (expression.c lines 661-667). -/
def expr_const (v : Num) : Expr := .const v

/-- Mirror of `expr_varref` (expression.c lines 669-675): a `Var` node
holding the cell's stable handle. -/
def expr_varref (h : List Char) : Expr := .var h

/-- Mirror of `expr_binary` (expression.c lines 677-685). -/
def expr_binary (t : ExprType) (a b : Expr) : Expr := .binop t a b

/-- Mirror of `expr_copy` (expression.c lines 687-715): a deep copy. Trees
are immutable values here and function context blocks are not modelled, so
the deep copy is the identity. -/
def expr_copy (e : Expr) : Expr := e

/-- An argument frame (`struct expr_arg`): the operator- and operand-stack
heights recorded when a call-like `(` opened, plus the collected argument
subtrees. -/
structure Frame where
  oslen : Nat
  eslen : Nat
  args : List Expr
deriving Repr

/-- A compile-local macro: its name and its body (the full argument list of
the defining `$(...)` call, whose element 0 is the parameter prototype). -/
abbrev MacroDef := List Char × List Expr

/-- The host function registry: registered names with their `ctxsz` (context
blocks themselves are not modelled). The registry is read-only during
compilation and evaluation. -/
abbrev Funcs := List (List Char × Nat)

/-- Mirror of `expr_func` (expression.c lines 151-160): first registered
descriptor whose name is exactly the first `len` characters of `s`. -/
def expr_func (funcs : Funcs) (s : List Char) (len : Nat) :
    Option (List Char × Nat) :=
  funcs.find? (fun f => f.1.length == len && f.1 == s.take len)

/-- Decimal digit scan, fuel-structured (`fuel ≥ n` always suffices). -/
def natDigitsAux : Nat → Nat → List Char
  | 0, n => [Char.ofNat (48 + n % 10)]
  | fuel + 1, n =>
    if n < 10 then [Char.ofNat (48 + n)]
    else natDigitsAux fuel (n / 10) ++ [Char.ofNat (48 + n % 10)]

/-- Decimal digits of a natural number, most significant first. -/
def natDigits (n : Nat) : List Char := natDigitsAux n n

/-- The macro-parameter assignment loop of `expr_create` (expression.c lines
879-890): for the `j`-th actual argument, materialize the variable whose
name `snprintf` formats into a 3-byte buffer (so `"$"` plus the decimal
index, truncated to two characters) and build `Assign($j, actual)`. Returns
the extended environment and the assignment nodes in order. -/
def macroAssigns (vars : Env) (args : List Expr) (j : Nat) :
    Env × List Expr :=
  match args with
  | [] => (vars, [])
  | a :: rest =>
    let vname := ('$' :: natDigits (j + 1)).take 2
    let vr := expr_var vars vname
    let asg := expr_binary .OP_ASSIGN (expr_varref (vr.1.getD [])) a
    let more := macroAssigns vr.2 rest (j + 1)
    (more.1, asg :: more.2)

/-- The body part of the comma spine built by macro expansion (expression.c
lines 891-902): the body elements after the prototype are chained as
`Comma(copy, _)`, the last one filling the final hole; with nothing to place
the hole stays `Const 0`. -/
def macroChainBody : List Expr → Expr
  | [] => expr_const (Num.fin 0)
  | [b] => expr_copy b
  | b :: rest => expr_binary .OP_COMMA (expr_copy b) (macroChainBody rest)

/-- The comma spine built by macro expansion (expression.c lines 876-902):
each parameter assignment becomes `Comma(assign, _)`, then the body is
chained into the final hole by `macroChainBody`. -/
def macroChain : List Expr → List Expr → Expr
  | a :: rest, bd => expr_binary .OP_COMMA a (macroChain rest bd)
  | [], bd => macroChainBody bd

/-- The newline-as-comma substitution step of `expr_create` (expression.c
lines 772-776): when the current token starts with a newline and the
`EXPR_COMMA` bit is set in the flags, replace it by a synthetic `,` token of
length 1 and clear the bit; otherwise the token passes through unchanged. -/
def expr_inject_comma (tok : List Char) (n : Nat) (flags : Nat) :
    List Char × Nat × Nat :=
  if tok.headD ' ' = '\n' ∧ flags &&& EXPR_COMMA ≠ 0 then
    ([','], 1, clearComma flags)
  else (tok, n, flags)

/-- The operator-popping loop run on a `)` (expression.c lines 828-834):
bind stack tops down to the frame's recorded height or the nearest `(` or
`{` sentinel. -/
def closeLoop : List (List Char) → List Expr → Nat →
    Option (List (List Char) × List Expr)
  | [], es, _ => some ([], es)
  | str :: osr, es, minlen =>
    if minlen < osr.length + 1 ∧ str.headD ' ' ≠ '(' ∧ str.headD ' ' ≠ '{' then
      match expr_bind str str.length es with
      | none => none
      | some es2 => closeLoop osr es2 minlen
    else some (str :: osr, es)

/-- The close-paren handling of `expr_create` (expression.c lines 826-921):
bind down to the sentinel; a `(` sentinel is discarded, a `{` sentinel closes
a call — completing a `$()` macro definition, expanding a macro call in
place, or building a `Func` node (the C code uses the descriptor without a
NULL check, which cannot fire because the name was validated when pushed). -/
def closeParen (es : List Expr) (os : List (List Char)) (as_ : List Frame)
    (macs : List MacroDef) (vars : Env) :
    Option (List Expr × List (List Char) × List Frame × List MacroDef × Env) :=
  let minlen := match as_.head? with
    | some f => f.oslen
    | none => 0
  match closeLoop os es minlen with
  | none => none
  | some ([], _) => none
  | some (str :: os2, es1) =>
    if str = ['{'] then
      let nameTok := os2.headD []
      let os3 := os2.tail
      let frame := as_.headD ⟨0, 0, []⟩
      let as2 := as_.tail
      let args :=
        if frame.eslen < es1.length then
          frame.args ++ [es1.headD (expr_const Num.nan)]
        else frame.args
      let es2 := if frame.eslen < es1.length then es1.tail else es1
      if nameTok = ['$'] then
        if args.length < 1 then none
        else
          match args.headD (expr_const Num.nan) with
          | .var h =>
            let macs2 :=
              if envHas vars h then macs ++ [(h, args)] else macs
            some (expr_const (Num.fin 0) :: es2, os3, as2, macs2, vars)
          | _ => none
      else
        match (macs.filter (fun m => m.1 == nameTok)).getLast? with
        | some m =>
          let pa := macroAssigns vars args 0
          some (macroChain pa.2 (m.2.drop 1) :: es2, os3, as2, macs, pa.1)
        | none =>
          some (Expr.func nameTok args :: es2, os3, as2, macs, vars)
    else some (es1, os2, as_, macs, vars)

/-- The operator-binding loop of `expr_create` (expression.c lines 932-957):
while the operator-stack top binds at least as tightly as the incoming
operator per `expr_prec`, pop and bind it, then push the incoming operator;
a `,` meeting a `{` sentinel on top instead moves the top operand into the
open argument frame and consumes the token. (The C code peeks `o2` once and
re-peeks after every pop, with a zero-length stale token — mapped by
`expr_op` to `OP_UNKNOWN` — when the stack empties; re-peeking the current
top each round is the same thing.) -/
def opLoop (tok : List Char) (n : Nat) (op : ExprType) :
    List Expr → List (List Char) → List Frame →
    Option (List Expr × List (List Char) × List Frame)
  | es, os, as_ =>
    if n = 1 ∧ tok = [','] ∧ os.head? = some ['{'] then
      let e := es.headD (expr_const Num.nan)
      let lastF := as_.headD ⟨0, 0, []⟩
      some (es.tail, os,
        ⟨lastF.oslen, lastF.eslen, lastF.args ++ [e]⟩ :: as_.tail)
    else
      match os with
      | [] => some (es, [tok], as_)
      | o2 :: osr =>
        let type2 := expr_op o2 o2.length (-1)
        if !(type2 != ExprType.OP_UNKNOWN && expr_prec op type2) then
          some (es, tok :: o2 :: osr, as_)
        else
          match expr_bind o2 o2.length es with
          | none => none
          | some es2 => opLoop tok n op es2 osr as_

/-- The drain loop after end of input (expression.c lines 974-982): bind
every remaining operator; a leftover paren sentinel is a parse error. -/
def drainLoop : List (List Char) → List Expr → Option (List Expr)
  | [], es => some es
  | restT :: osr, es =>
    if restT.length = 1 ∧ (restT.headD ' ' = '(' ∨ restT.headD ' ' = ')') then
      none
    else
      match expr_bind restT restT.length es with
      | none => none
      | some es2 => drainLoop osr es2

/-- The postlude of `expr_create` (expression.c lines 970-991): flush a
still-buffered word as a variable reference, drain the operator stack, and
produce the root — the top remaining operand, or `Const 0` when the operand
stack is empty. -/
def expr_create_fin (idTok : List Char) (es : List Expr)
    (os : List (List Char)) (vars : Env) : Option Expr × Env :=
  let step1 : List Expr × Env :=
    if 0 < idTok.length then
      let vr := expr_var vars idTok
      (expr_varref (vr.1.getD []) :: es, vr.2)
    else (es, vars)
  match drainLoop os step1.1 with
  | none => (none, step1.2)
  | some [] => (some (expr_const (Num.fin 0)), step1.2)
  | some (root :: _) => (some root, step1.2)

/-- Mirror of the driving loop of `expr_create` (expression.c lines 719-1019)
with the parser state explicit: remaining input, flags word, paren mode, the
buffered word token (`id`/`idn`; empty when none), operand stack `es`,
operator stack `os`, argument-frame stack, compile-local macro table, and
the variable environment. Stacks are lists with the top at the head; the
frame argument lists and the macro table keep C's chronological (append)
order. Every iteration consumes at least one input character, so
fuel `s.length + 1` can never run out; the fuel-0 branch is dead. Any `goto
cleanup` with no result built becomes `none` (the environment, which C
mutates in place, is returned in every case). -/
def expr_create_go (funcs : Funcs) : Nat → List Char → Nat → Nat →
    List Char → List Expr → List (List Char) → List Frame →
    List MacroDef → Env → Option Expr × Env
  | 0, _, _, _, _, _, _, _, _, vars => (none, vars)
  | fuel + 1, s, flags, paren, idTok, es, os, as_, macs, vars =>
    let tk := expr_next_token s flags
    if tk.1 = 0 then expr_create_fin idTok es os vars
    else if tk.1 < 0 then (none, vars)
    else
      let n0 := tk.1.toNat
      let flags0 := tk.2
      let tok0 := s.take n0
      let rest := s.drop n0
      if tok0.headD ' ' = '#' then
        expr_create_go funcs fuel rest flags0 paren idTok es os as_ macs vars
      else
        let uo : Option (List Char × Nat) :=
          if flags0 &&& EXPR_UNARY ≠ 0 ∧ n0 = 1 then
            match tok0.headD ' ' with
            | '-' => some (['-', 'u'], 2)
            | '^' => some (['^', 'u'], 2)
            | '!' => some (['!', 'u'], 2)
            | _ => none
          else some (tok0, n0)
        match uo with
        | none => (none, vars)
        | some (tok1, n1) =>
          let ic := expr_inject_comma tok1 n1 flags0
          let tok := ic.1
          let n := ic.2.1
          let flags1 := ic.2.2
          if cIsSpace (tok.headD ' ') then
            expr_create_go funcs fuel rest flags1 paren idTok es os as_ macs
              vars
          else
            let wr : Option (List Expr × List (List Char) × Nat × Env) :=
              if 0 < idTok.length then
                if n = 1 ∧ tok = ['('] then
                  let hasMac := macs.any (fun m => m.1 == idTok)
                  if idTok = ['$'] ∨ hasMac = true ∨
                      (expr_func funcs idTok idTok.length).isSome then
                    some (es, idTok :: os, EXPR_PAREN_EXPECTED, vars)
                  else none
                else
                  match expr_var vars idTok with
                  | (some h, vars2) =>
                    some (expr_varref h :: es, os, EXPR_PAREN_FORBIDDEN,
                      vars2)
                  | (none, vars2) => some (es, os, paren, vars2)
              else some (es, os, paren, vars)
            match wr with
            | none => (none, vars)
            | some (es1, os1, paren1, vars1) =>
              if n = 1 ∧ tok = ['('] then
                if paren1 = EXPR_PAREN_EXPECTED then
                  let os2 := ['{'] :: os1
                  expr_create_go funcs fuel rest flags1 EXPR_PAREN_ALLOWED []
                    es1 os2 (⟨os2.length, es1.length, []⟩ :: as_) macs vars1
                else if paren1 = EXPR_PAREN_ALLOWED then
                  expr_create_go funcs fuel rest flags1 EXPR_PAREN_ALLOWED []
                    es1 (['('] :: os1) as_ macs vars1
                else (none, vars1)
              else if paren1 = EXPR_PAREN_EXPECTED then (none, vars1)
              else if n = 1 ∧ tok = [')'] then
                match closeParen es1 os1 as_ macs vars1 with
                | none => (none, vars1)
                | some (es2, os2, as2, macs2, vars2) =>
                  expr_create_go funcs fuel rest flags1 EXPR_PAREN_FORBIDDEN
                    [] es2 os2 as2 macs2 vars2
              else if numIsNanB (expr_parse_number tok n) = false then
                expr_create_go funcs fuel rest flags1 EXPR_PAREN_FORBIDDEN []
                  (expr_const (expr_parse_number tok n) :: es1) os1 as_
                  macs vars1
              else if expr_op tok n (-1) ≠ .OP_UNKNOWN then
                match opLoop tok n (expr_op tok n (-1)) es1 os1 as_ with
                | none => (none, vars1)
                | some (es2, os2, as2) =>
                  expr_create_go funcs fuel rest flags1 EXPR_PAREN_ALLOWED []
                    es2 os2 as2 macs vars1
              else
                if 0 < n ∧ cIsDigit (tok.headD ' ') = false then
                  expr_create_go funcs fuel rest flags1 EXPR_PAREN_ALLOWED
                    tok es1 os1 as_ macs vars1
                else (none, vars1)

/-- Mirror of `expr_create` (expression.c lines 719-1019): compile a source
string against a variable environment and a function registry. The result is
the tree (`none` on a parse error, as C returns NULL) together with the
final environment — variables allocated before a failure stay allocated,
exactly as in C. -/
def expr_create (s : List Char) (vars : Env) (funcs : Funcs) :
    Option Expr × Env :=
  expr_create_go funcs (s.length + 1) s EXPR_TDEFAULT EXPR_PAREN_ALLOWED []
    [] [] [] [] vars

/-- A trivial host dispatch used to instantiate `HostF` in concrete runs
(never invoked on the trees those runs build). -/
def hostNone : HostF := fun _ _ env => (Num.nan, env)

/-- Writing through a handle that is live in the environment makes a
subsequent read through the same handle return the written value. -/
theorem envGet_envSet (env : Env) (h : List Char) (v : Num)
    (hmem : envHas env h = true) : envGet (envSet env h v) h = v := by
  induction env with
  | nil => simp [envHas, List.find?] at hmem
  | cons p rest ih =>
    by_cases hp : p.1 = h
    · simp [envSet, hp, envGet, List.find?]
    · have hpb : (p.1 == h) = false := by simp [hp]
      simp only [envHas, List.find?, hpb] at hmem
      simp only [envSet, if_neg hp, envGet, List.find?, hpb]
      exact ih hmem

/-- C1: for every `LogicalAnd(a, b)` node, `expr_eval` first evaluates `a`;
if `a`'s value equals 0 the node yields 0 with the state left exactly as `a`
left it (so no side effect of `b` occurs); otherwise `b` is evaluated and the
node yields `b`'s value when that value is nonzero and 0 otherwise, with
`b`'s final state. -/
theorem logicalAnd_short_circuit (hf : HostF) (a b : Expr) (env env1 : Env)
    (va : Num) (hA : expr_eval hf a env = (va, env1)) :
    (numEqB va (Num.fin 0) = true →
      expr_eval hf (Expr.binop .OP_LOGICAL_AND a b) env = (Num.fin 0, env1)) ∧
    (numEqB va (Num.fin 0) = false →
      expr_eval hf (Expr.binop .OP_LOGICAL_AND a b) env =
        (if numNeB (expr_eval hf b env1).1 (Num.fin 0) = true
          then (expr_eval hf b env1).1 else Num.fin 0,
         (expr_eval hf b env1).2)) := by
  constructor
  · intro hz
    simp [expr_eval, hA, numNeB, hz]
  · intro hz
    simp only [expr_eval, hA, numNeB, hz, Bool.not_false, if_true]
    split <;> simp_all

/-- C1 witness: `0 && (x = 1)` evaluates to 0 and performs no assignment. -/
theorem logicalAnd_short_circuit_witness :
    expr_eval hostNone
      (Expr.binop .OP_LOGICAL_AND (Expr.const (Num.fin 0))
        (Expr.binop .OP_ASSIGN (Expr.var ['x']) (Expr.const (Num.fin 1))))
      [(['x'], Num.fin 0)] = (Num.fin 0, [(['x'], Num.fin 0)]) :=
  (logicalAnd_short_circuit hostNone (Expr.const (Num.fin 0))
    (Expr.binop .OP_ASSIGN (Expr.var ['x']) (Expr.const (Num.fin 1)))
    [(['x'], Num.fin 0)] [(['x'], Num.fin 0)] (Num.fin 0) rfl).1 (by decide)

/-- C2: for an `Assign` node whose left child is `Var h`, `expr_eval`
evaluates the right child to a value `n`, stores `n` through the handle `h`,
and returns `n`; hence, the handle being live after the right child's
evaluation, the variable afterwards reads back exactly the value the whole
`Assign` subexpression evaluated to. -/
theorem assign_stores_and_returns (hf : HostF) (h : List Char) (rhs : Expr)
    (env env1 : Env) (n : Num) (hR : expr_eval hf rhs env = (n, env1))
    (hmem : envHas env1 h = true) :
    expr_eval hf (Expr.binop .OP_ASSIGN (Expr.var h) rhs) env =
      (n, envSet env1 h n) ∧
    envGet (envSet env1 h n) h = n := by
  refine ⟨?_, envGet_envSet env1 h n hmem⟩
  simp [expr_eval, hR]

/-- C2 witness: after `x = 5` the node evaluates to 5 and `x` reads back 5. -/
theorem assign_stores_and_returns_witness :
    expr_eval hostNone
      (Expr.binop .OP_ASSIGN (Expr.var ['x']) (Expr.const (Num.fin 5)))
      [(['x'], Num.fin 0)] =
      (Num.fin 5, envSet [(['x'], Num.fin 0)] ['x'] (Num.fin 5)) ∧
    envGet (envSet [(['x'], Num.fin 0)] ['x'] (Num.fin 5)) ['x'] =
      Num.fin 5 :=
  assign_stores_and_returns hostNone ['x'] (Expr.const (Num.fin 5))
    [(['x'], Num.fin 0)] [(['x'], Num.fin 0)] (Num.fin 5) rfl (by decide)

/-- C4: for every `LogicalOr(a, b)` node, `expr_eval` evaluates `a`; if
`a`'s value is nonzero and not NaN the node yields that value without
evaluating `b` (the final state is `a`'s); otherwise `b` is evaluated and
the node yields `b`'s value when nonzero, else 0. -/
theorem logicalOr_nan_guard (hf : HostF) (a b : Expr) (env env1 : Env)
    (va : Num) (hA : expr_eval hf a env = (va, env1)) :
    ((numNeB va (Num.fin 0) = true ∧ numIsNanB va = false) →
      expr_eval hf (Expr.binop .OP_LOGICAL_OR a b) env = (va, env1)) ∧
    (¬(numNeB va (Num.fin 0) = true ∧ numIsNanB va = false) →
      expr_eval hf (Expr.binop .OP_LOGICAL_OR a b) env =
        (if numNeB (expr_eval hf b env1).1 (Num.fin 0) = true
          then (expr_eval hf b env1).1 else Num.fin 0,
         (expr_eval hf b env1).2)) := by
  constructor
  · intro hz
    simp [expr_eval, hA, hz.1, hz.2]
  · intro hz
    have hcond : (numNeB va (Num.fin 0) && !numIsNanB va) = false := by
      cases hn : numNeB va (Num.fin 0) <;> cases hi : numIsNanB va <;>
        simp_all
    simp only [expr_eval, hA, hcond, Bool.false_eq_true, if_false]
    split <;> simp_all

/-- C4 witness: `1 || (x = 9)` yields 1 without performing the assignment. -/
theorem logicalOr_nan_guard_witness :
    expr_eval hostNone
      (Expr.binop .OP_LOGICAL_OR (Expr.const (Num.fin 1))
        (Expr.binop .OP_ASSIGN (Expr.var ['x']) (Expr.const (Num.fin 9))))
      [(['x'], Num.fin 0)] = (Num.fin 1, [(['x'], Num.fin 0)]) :=
  (logicalOr_nan_guard hostNone (Expr.const (Num.fin 1))
    (Expr.binop .OP_ASSIGN (Expr.var ['x']) (Expr.const (Num.fin 9)))
    [(['x'], Num.fin 0)] [(['x'], Num.fin 0)] (Num.fin 1) rfl).1
    (by constructor <;> decide)

/-- C7 (amended): every comparison node (`Lt`, `Le`, `Gt`, `Ge`, `Eq`, `Ne`)
and every `LogicalNot` node evaluates to exactly 0.0 or 1.0 for all operand
values; `LogicalAnd` and `LogicalOr`, by contrast, yield either 0.0 or the
raw (uncanonicalized) value of one of their operands. -/
theorem comparison_logical_canonical (hf : HostF) (a b : Expr) (env : Env) :
    ((expr_eval hf (Expr.binop .OP_LT a b) env).1 = Num.fin 0 ∨
      (expr_eval hf (Expr.binop .OP_LT a b) env).1 = Num.fin 1) ∧
    ((expr_eval hf (Expr.binop .OP_LE a b) env).1 = Num.fin 0 ∨
      (expr_eval hf (Expr.binop .OP_LE a b) env).1 = Num.fin 1) ∧
    ((expr_eval hf (Expr.binop .OP_GT a b) env).1 = Num.fin 0 ∨
      (expr_eval hf (Expr.binop .OP_GT a b) env).1 = Num.fin 1) ∧
    ((expr_eval hf (Expr.binop .OP_GE a b) env).1 = Num.fin 0 ∨
      (expr_eval hf (Expr.binop .OP_GE a b) env).1 = Num.fin 1) ∧
    ((expr_eval hf (Expr.binop .OP_EQ a b) env).1 = Num.fin 0 ∨
      (expr_eval hf (Expr.binop .OP_EQ a b) env).1 = Num.fin 1) ∧
    ((expr_eval hf (Expr.binop .OP_NE a b) env).1 = Num.fin 0 ∨
      (expr_eval hf (Expr.binop .OP_NE a b) env).1 = Num.fin 1) ∧
    ((expr_eval hf (Expr.unop .OP_UNARY_LOGICAL_NOT a) env).1 = Num.fin 0 ∨
      (expr_eval hf (Expr.unop .OP_UNARY_LOGICAL_NOT a) env).1 = Num.fin 1) ∧
    ((expr_eval hf (Expr.binop .OP_LOGICAL_AND a b) env).1 = Num.fin 0 ∨
      (expr_eval hf (Expr.binop .OP_LOGICAL_AND a b) env).1 =
        (expr_eval hf b (expr_eval hf a env).2).1) ∧
    ((expr_eval hf (Expr.binop .OP_LOGICAL_OR a b) env).1 = Num.fin 0 ∨
      (expr_eval hf (Expr.binop .OP_LOGICAL_OR a b) env).1 =
        (expr_eval hf a env).1 ∨
      (expr_eval hf (Expr.binop .OP_LOGICAL_OR a b) env).1 =
        (expr_eval hf b (expr_eval hf a env).2).1) := by
  refine ⟨?_, ?_, ?_, ?_, ?_, ?_, ?_, ?_, ?_⟩ <;>
    simp only [expr_eval] <;> (repeat' split) <;> simp

/-- C7 is false as stated: `LogicalAnd(Const 2, Const 3)` evaluates to 3,
which is neither 0.0 nor 1.0. -/
theorem logical_not_canonical_cex :
    (expr_eval hostNone
      (Expr.binop .OP_LOGICAL_AND (Expr.const (Num.fin 2))
        (Expr.const (Num.fin 3))) []).1 = Num.fin 3 ∧
    Num.fin 3 ≠ Num.fin 0 ∧ Num.fin 3 ≠ Num.fin 1 :=
  ⟨rfl, by decide, by decide⟩

/-- The syntactic side condition of C10: the tree contains no `Assign` node
and no `Func` node. -/
def noAssignNoFunc : Expr → Bool
  | .const _ => true
  | .var _ => true
  | .unop _ a => noAssignNoFunc a
  | .binop t a b => t != .OP_ASSIGN && noAssignNoFunc a && noAssignNoFunc b
  | .func _ _ => false

instance : Nonempty Env := ⟨[]⟩

/-- Recursive kernel of the frame property: the only `expr_eval` cases that
change the environment are `OP_ASSIGN` and the `OP_FUNC` dispatch. -/
def evalFrameAux (hf : HostF) : ∀ (e : Expr) (env : Env),
    noAssignNoFunc e = true → (expr_eval hf e env).2 = env
  | .const _, _, _ => rfl
  | .var _, _, _ => rfl
  | .func f args, _, hp => by simp [noAssignNoFunc] at hp
  | .unop t a, env, hp => by
    simp only [noAssignNoFunc] at hp
    have ih := evalFrameAux hf a
    cases t <;> simp [expr_eval] <;> exact ih env hp
  | .binop t a b, env, hp => by
    simp only [noAssignNoFunc, Bool.and_eq_true, bne_iff_ne] at hp
    obtain ⟨⟨_ht, hpa⟩, hpb⟩ := hp
    have iha := fun env => evalFrameAux hf a env hpa
    have ihb := fun env => evalFrameAux hf b env hpb
    cases t <;> simp only [expr_eval] <;> (repeat' split) <;> simp_all

/-- C10: evaluating a tree with no `Assign` and no `Func` node leaves every
variable of the environment unchanged — the `OP_ASSIGN` case is the only
place `expr_eval` writes through a variable handle (and `OP_FUNC` the only
place arbitrary host code runs). -/
theorem eval_frame_no_assign_no_func (hf : HostF) (e : Expr) (env : Env)
    (hp : noAssignNoFunc e = true) : (expr_eval hf e env).2 = env :=
  evalFrameAux hf e env hp

/-- C10 witness: evaluating `x + 1` (no assignment, no call) leaves the
environment untouched. -/
theorem eval_frame_witness :
    (expr_eval hostNone
      (Expr.binop .OP_PLUS (Expr.var ['x']) (Expr.const (Num.fin 1)))
      [(['x'], Num.fin 2)]).2 = [(['x'], Num.fin 2)] :=
  eval_frame_no_assign_no_func hostNone
    (Expr.binop .OP_PLUS (Expr.var ['x']) (Expr.const (Num.fin 1)))
    [(['x'], Num.fin 2)] rfl

/-- C3 (amended): `to_int` maps NaN to 0, positive infinity to INT32_MAX
and negative infinity to `-INT32_MAX` (that is, INT32_MIN + 1 — the code
computes `INT_MAX * isinf(x)`), and truncates finite values toward zero;
the bitwise and shift cases of `expr_eval` route each operand through
`to_int` before operating and re-widen the integer result. -/
theorem to_int_coercion_routing (hf : HostF) (a b : Expr) (env : Env)
    (q : ℚ) :
    to_int Num.nan = 0 ∧
    to_int (Num.inf true) = 2147483647 ∧
    to_int (Num.inf false) = -2147483647 ∧
    to_int (Num.fin q) = qtrunc q ∧
    expr_eval hf (Expr.binop .OP_BITWISE_AND a b) env =
      (intToNum (int32_and (to_int (expr_eval hf a env).1)
          (to_int (expr_eval hf b (expr_eval hf a env).2).1)),
        (expr_eval hf b (expr_eval hf a env).2).2) ∧
    expr_eval hf (Expr.binop .OP_BITWISE_OR a b) env =
      (intToNum (int32_or (to_int (expr_eval hf a env).1)
          (to_int (expr_eval hf b (expr_eval hf a env).2).1)),
        (expr_eval hf b (expr_eval hf a env).2).2) ∧
    expr_eval hf (Expr.binop .OP_BITWISE_XOR a b) env =
      (intToNum (int32_xor (to_int (expr_eval hf a env).1)
          (to_int (expr_eval hf b (expr_eval hf a env).2).1)),
        (expr_eval hf b (expr_eval hf a env).2).2) ∧
    expr_eval hf (Expr.binop .OP_SHL a b) env =
      (intToNum (int32_shl (to_int (expr_eval hf a env).1)
          (to_int (expr_eval hf b (expr_eval hf a env).2).1)),
        (expr_eval hf b (expr_eval hf a env).2).2) ∧
    expr_eval hf (Expr.binop .OP_SHR a b) env =
      (intToNum (int32_shr (to_int (expr_eval hf a env).1)
          (to_int (expr_eval hf b (expr_eval hf a env).2).1)),
        (expr_eval hf b (expr_eval hf a env).2).2) ∧
    expr_eval hf (Expr.unop .OP_UNARY_BITWISE_NOT a) env =
      (intToNum (int32_not (to_int (expr_eval hf a env).1)),
        (expr_eval hf a env).2) :=
  ⟨rfl, by decide, by decide, rfl, rfl, rfl, rfl, rfl, rfl, rfl⟩

/-- C3 is false as stated at negative infinity: `to_int` yields `-INT_MAX`
(-2147483647), which is not INT32_MIN (-2147483648). -/
theorem to_int_neg_inf_cex :
    to_int (Num.inf false) = -2147483647 ∧
    to_int (Num.inf false) ≠ -2147483648 :=
  ⟨by decide, by decide⟩

/-- C5: compiling the source `2**3**2` against an empty environment and an
empty function registry succeeds, evaluating the resulting tree yields 512
(the parse is right-associative, `2**(3**2)`), and the environment is
unchanged (empty) after both compilation and evaluation. -/
theorem power_right_assoc_512 :
    ((expr_create ['2', '*', '*', '3', '*', '*', '2'] [] []).1.map
      (fun t => expr_eval hostNone t [])) = some (Num.fin 512, []) ∧
    (expr_create ['2', '*', '*', '3', '*', '*', '2'] [] []).2 = [] := by
  constructor <;> rfl

/-- C6 is false as stated, at the concrete input `"\nx"` with the top-level
bit set: the next non-space character after the newline is `x` — neither end
of input nor `)` — and the tokenizer leaves the COMMA bit SET (not cleared);
moreover the parser's injection step passes a newline token through
untouched when the COMMA bit is CLEAR (flags word `EXPR_TOP`), instead of
injecting a `,`. -/
theorem newline_comma_polarity_cex :
    ((expr_next_token ['\n', 'x'] EXPR_TOP).2 &&& EXPR_COMMA ≠ 0) ∧
    expr_inject_comma ['\n'] 1 EXPR_TOP = (['\n'], 1, EXPR_TOP) :=
  ⟨by decide, rfl⟩

/-- C6 (amended): when the tokenizer reads a newline while the top-level bit
is set, it swallows the following whitespace; if the next non-space position
is end-of-input or holds `)`, it CLEARS the COMMA bit of the flags word,
and otherwise it SETS the COMMA bit (resetting the flags to
number/word/open-paren plus COMMA). The parser injects a synthetic `,` token
of length 1 exactly when a newline-started token arrives with the COMMA bit
SET, clearing the bit; with the bit clear the token passes through
unchanged. -/
theorem newline_comma_mechanism (s rest : List Char) (flags : Nat)
    (hs : s = '\n' :: rest) (htop : flags &&& EXPR_TOP ≠ 0) :
    (((s.takeWhile cIsSpace).length = s.length ∨
        s.getD (s.takeWhile cIsSpace).length ' ' = ')') →
      expr_next_token s flags =
        (((s.takeWhile cIsSpace).length : Int), clearComma flags) ∧
      clearComma flags &&& EXPR_COMMA = 0) ∧
    (¬((s.takeWhile cIsSpace).length = s.length ∨
        s.getD (s.takeWhile cIsSpace).length ' ' = ')') →
      expr_next_token s flags =
        (((s.takeWhile cIsSpace).length : Int),
          EXPR_TNUMBER ||| EXPR_TWORD ||| EXPR_TOPEN ||| EXPR_COMMA) ∧
      (EXPR_TNUMBER ||| EXPR_TWORD ||| EXPR_TOPEN ||| EXPR_COMMA) &&&
        EXPR_COMMA ≠ 0) ∧
    (∀ (tok : List Char) (n f : Nat), tok.headD ' ' = '\n' →
      (f &&& EXPR_COMMA ≠ 0 →
        expr_inject_comma tok n f = ([','], 1, clearComma f)) ∧
      (f &&& EXPR_COMMA = 0 → expr_inject_comma tok n f = (tok, n, f))) := by
  subst hs
  refine ⟨?_, ?_, ?_⟩
  · intro hend
    constructor
    · simp only [expr_next_token]
      rw [if_pos trivial, if_pos htop, if_pos hend, if_neg (by decide)]
    · show (flags &&& 4294967231) &&& 64 = 0
      have h1 : (4294967231 &&& 64 : Nat) = 0 := by decide
      rw [Nat.land_assoc, h1, Nat.and_zero]
  · intro hend
    constructor
    · simp only [expr_next_token]
      rw [if_pos trivial, if_pos htop, if_neg hend, if_neg (by decide)]
    · decide
  · intro tok n f hhead
    constructor
    · intro hset
      simp only [expr_inject_comma]
      rw [if_pos ⟨hhead, hset⟩]
    · intro hclear
      simp only [expr_inject_comma]
      rw [if_neg (fun hc => hc.2 hclear)]

/-- C6 witness: on `"\n)"` with the top-level bit set, the tokenizer clears
the COMMA bit. -/
theorem newline_comma_mechanism_witness :
    expr_next_token ['\n', ')'] EXPR_TOP =
      (((['\n', ')'].takeWhile cIsSpace).length : Int), clearComma EXPR_TOP) ∧
    clearComma EXPR_TOP &&& EXPR_COMMA = 0 :=
  (newline_comma_mechanism ['\n', ')'] [')'] EXPR_TOP rfl (by decide)).1
    (by decide)

/-- A digit is none of the characters the earlier tokenizer branches test. -/
theorem digit_not_hash {c : Char} (hd : cIsDigit c = true) : c ≠ '#' :=
  fun h => absurd (h ▸ hd) (by decide)

/-- A digit is not a newline. -/
theorem digit_not_newline {c : Char} (hd : cIsDigit c = true) : c ≠ '\n' :=
  fun h => absurd (h ▸ hd) (by decide)

/-- A digit is not a space character. -/
theorem digit_not_space {c : Char} (hd : cIsDigit c = true) :
    cIsSpace c = false := by
  revert hd
  simp only [cIsDigit, cIsSpace, Bool.and_eq_true, Bool.or_eq_false_iff,
    decide_eq_true_eq, beq_eq_false_iff_ne, ne_eq, Bool.and_eq_false_iff,
    decide_eq_false_iff_not]
  omega

/-- Once past the dot (`frac ≥ 1`), a further dot in the remaining input
makes the number-scanning loop fail. -/
theorem parseNumLoop_dot_after (rest : List Char) :
    ∀ (num : ℚ) (frac digits : Nat), 1 ≤ frac → 1 ≤ rest.count '.' →
      parseNumLoop rest num frac digits = none := by
  induction rest with
  | nil => intro num frac digits _ hdot; simp at hdot
  | cons c cs ih =>
    intro num frac digits hf hdot
    by_cases hc : c = '.'
    · subst hc
      have h1 : ¬('.' = '.' ∧ frac = 0) := fun h => by omega
      unfold parseNumLoop
      rw [if_neg h1, if_neg (by decide : ¬(cIsDigit '.' = true))]
    · have hcc : List.count '.' (c :: cs) = List.count '.' cs := by
        simp [List.count_cons, hc]
      have hcount : 1 ≤ cs.count '.' := by omega
      have h1 : ¬(c = '.' ∧ frac = 0) := fun h => hc h.1
      by_cases hdig : cIsDigit c = true
      · unfold parseNumLoop
        rw [if_neg h1, if_pos hdig]
        refine ih _ _ _ ?_ hcount
        split <;> omega
      · unfold parseNumLoop
        rw [if_neg h1, if_neg (by simp [hdig])]

/-- A lexeme containing at least two dots makes the number-scanning loop
fail from its initial state. -/
theorem parseNumLoop_two_dots (t : List Char) :
    ∀ (num : ℚ) (digits : Nat), 2 ≤ t.count '.' →
      parseNumLoop t num 0 digits = none := by
  induction t with
  | nil => intro num digits h2; simp at h2
  | cons c cs ih =>
    intro num digits h2
    by_cases hc : c = '.'
    · subst hc
      have hcc : List.count '.' ('.' :: cs) = List.count '.' cs + 1 := by
        simp [List.count_cons]
      have hcount : 1 ≤ cs.count '.' := by omega
      unfold parseNumLoop
      rw [if_pos (⟨rfl, rfl⟩ : '.' = '.' ∧ (0 : Nat) = 0)]
      exact parseNumLoop_dot_after cs num 1 digits (by omega) hcount
    · have hcc : List.count '.' (c :: cs) = List.count '.' cs := by
        simp [List.count_cons, hc]
      have hcount : 2 ≤ cs.count '.' := by omega
      have h1 : ¬(c = '.' ∧ (0 : Nat) = 0) := fun h => hc h.1
      by_cases hdig : cIsDigit c = true
      · unfold parseNumLoop
        rw [if_neg h1, if_pos hdig]
        exact ih _ _ hcount
      · unfold parseNumLoop
        rw [if_neg h1, if_neg (by simp [hdig])]

/-- C9 is false as stated at the concrete input `1.2.3`: with numbers legal,
the tokenizer accepts the whole five-character lexeme, which contains two
dots — the digit run is not limited to one dot and the lexeme is not of the
form `[0-9]+(\.[0-9]+)?`. -/
theorem number_token_two_dots_cex :
    expr_next_token ['1', '.', '2', '.', '3'] EXPR_TDEFAULT =
      (5, EXPR_TOP ||| EXPR_TCLOSE) ∧
    (['1', '.', '2', '.', '3'].take 5).count '.' = 2 := by
  constructor <;> rfl

/-- C9 (amended): when the tokenizer accepts a lexeme starting with a digit
(numbers legal next), it returns the length of the maximal run over digits
and dots — a run that may contain any number of dots — and sets the
operator/close flags; lexemes with two or more dots then fail numeric
conversion (`expr_parse_number` yields NaN), so they are rejected by the
compiler downstream rather than by the lexer. -/
theorem number_token_dot_run (s rest : List Char) (c : Char) (flags : Nat)
    (hs : s = c :: rest) (hd : cIsDigit c = true)
    (hflag : flags &&& EXPR_TNUMBER ≠ 0) :
    expr_next_token s flags =
      (((s.takeWhile cIsNumChar).length : Int), EXPR_TOP ||| EXPR_TCLOSE) ∧
    (∀ (t : List Char), 2 ≤ t.count '.' →
      expr_parse_number t t.length = Num.nan) := by
  subst hs
  constructor
  · simp only [expr_next_token]
    rw [if_neg (digit_not_hash hd), if_neg (digit_not_newline hd),
      if_neg (by simp [digit_not_space hd]), if_pos hd, if_neg hflag]
  · intro t h2
    have := parseNumLoop_two_dots t 0 0 h2
    simp [expr_parse_number, List.take_length, this]

/-- C9 witness: the amended statement at the concrete input `1.2.3`. -/
theorem number_token_dot_run_witness :
    expr_next_token ['1', '.', '2', '.', '3'] EXPR_TDEFAULT =
      (((['1', '.', '2', '.', '3'].takeWhile cIsNumChar).length : Int),
        EXPR_TOP ||| EXPR_TCLOSE) ∧
    expr_parse_number ['1', '.', '2', '.', '3'] 5 = Num.nan :=
  ⟨(number_token_dot_run ['1', '.', '2', '.', '3'] ['.', '2', '.', '3'] '1'
      EXPR_TDEFAULT rfl (by decide) (by decide)).1,
   (number_token_dot_run ['1', '.', '2', '.', '3'] ['.', '2', '.', '3'] '1'
      EXPR_TDEFAULT rfl (by decide) (by decide)).2
      ['1', '.', '2', '.', '3'] (by decide)⟩

/-- A first-variable character is not `#` (its byte 35 is below `@` and it is
not `$`). -/
theorem firstvar_not_hash {c : Char} (h : isfirstvarchr c = true) :
    c ≠ '#' := fun he => absurd (he ▸ h) (by decide)

/-- A first-variable character is not a newline. -/
theorem firstvar_not_newline {c : Char} (h : isfirstvarchr c = true) :
    c ≠ '\n' := fun he => absurd (he ▸ h) (by decide)

/-- A first-variable character is not a space character. -/
theorem firstvar_not_space {c : Char} (h : isfirstvarchr c = true) :
    cIsSpace c = false := by
  by_cases hd : c = '$'
  · subst hd; decide
  · revert h
    simp only [isfirstvarchr, cIsSpace, Bool.or_eq_true, Bool.and_eq_true,
      decide_eq_true_eq, beq_iff_eq, hd, or_false, Bool.or_eq_false_iff,
      Bool.and_eq_false_iff, decide_eq_false_iff_not, beq_eq_false_iff_ne,
      ne_eq]
    intro h
    constructor
    · omega
    · right; omega

/-- A first-variable character is not a digit. -/
theorem firstvar_not_digit {c : Char} (h : isfirstvarchr c = true) :
    cIsDigit c = false := by
  by_cases hd : c = '$'
  · subst hd; decide
  · revert h
    simp only [isfirstvarchr, cIsDigit, Bool.or_eq_true, Bool.and_eq_true,
      decide_eq_true_eq, beq_iff_eq, hd, or_false, Bool.and_eq_false_iff,
      decide_eq_false_iff_not]
    intro h
    right; omega

/-- The head satisfying the scanned predicate makes the `takeWhile` run
nonempty. -/
theorem takeWhile_len_pos {p : Char → Bool} {c : Char} (rest : List Char)
    (h : p c = true) : 0 < ((c :: rest).takeWhile p).length := by
  simp [List.takeWhile_cons, h]

/-- The characters that fall through to the operator branch of the
tokenizer: none of the earlier branch tests applies. -/
def isOtherChar (c : Char) : Bool :=
  c != '#' && c != '\n' && !cIsSpace c && !cIsDigit c && !isfirstvarchr c &&
    c != '(' && c != ')'

/-- Once the operator scan has recorded a successful match, it reports it. -/
theorem opScan_true (s : List Char) : ∀ (rest : List Char) (i : Nat),
    (opScan s i rest true).2 = true := by
  intro rest
  induction rest with
  | nil => intro i; simp [opScan]
  | cons c cs ih =>
    intro i
    by_cases hoc : cIsOpChar c = true
    · by_cases hop : (expr_op s (i + 1) 0 != .OP_UNKNOWN) = true
      · unfold opScan; rw [if_pos hoc, if_pos hop]; exact ih (i + 1)
      · unfold opScan; rw [if_pos hoc, if_neg (by simp_all), if_pos rfl]
    · unfold opScan; rw [if_neg hoc]

/-- The operator scan never moves its offset backwards. -/
theorem opScan_ge (s : List Char) : ∀ (rest : List Char) (i : Nat) (f : Bool),
    i ≤ (opScan s i rest f).1 := by
  intro rest
  induction rest with
  | nil => intro i f; simp [opScan]
  | cons c cs ih =>
    intro i f
    by_cases hoc : cIsOpChar c = true
    · by_cases hop : (expr_op s (i + 1) 0 != .OP_UNKNOWN) = true
      · unfold opScan; rw [if_pos hoc, if_pos hop]
        exact Nat.le_trans (Nat.le_succ i) (ih (i + 1) true)
      · by_cases hf : f = true
        · unfold opScan; rw [if_pos hoc, if_neg hop, if_pos hf]
        · unfold opScan; rw [if_pos hoc, if_neg hop, if_neg hf]
          exact Nat.le_trans (Nat.le_succ i) (ih (i + 1) false)
    · unfold opScan; rw [if_neg hoc]

/-- The operator scan consumes at most its suffix. -/
theorem opScan_le (s : List Char) : ∀ (rest : List Char) (i : Nat) (f : Bool),
    (opScan s i rest f).1 ≤ i + rest.length := by
  intro rest
  induction rest with
  | nil => intro i f; simp [opScan]
  | cons c cs ih =>
    intro i f
    by_cases hoc : cIsOpChar c = true
    · by_cases hop : (expr_op s (i + 1) 0 != .OP_UNKNOWN) = true
      · unfold opScan; rw [if_pos hoc, if_pos hop]
        have := ih (i + 1) true
        simp only [List.length_cons]
        omega
      · by_cases hf : f = true
        · unfold opScan; rw [if_pos hoc, if_neg hop, if_pos hf]
          simp
        · unfold opScan; rw [if_pos hoc, if_neg hop, if_neg hf]
          have := ih (i + 1) false
          simp only [List.length_cons]
          omega
    · unfold opScan; rw [if_neg hoc]; simp

/-- A scan that started without a match and reports one has moved. -/
theorem opScan_false_moved (s : List Char) : ∀ (rest : List Char) (i : Nat),
    (opScan s i rest false).2 = true → i + 1 ≤ (opScan s i rest false).1 := by
  intro rest
  induction rest with
  | nil => intro i h; simp [opScan] at h
  | cons c cs ih =>
    intro i h
    by_cases hoc : cIsOpChar c = true
    · by_cases hop : (expr_op s (i + 1) 0 != .OP_UNKNOWN) = true
      · unfold opScan at h ⊢
        rw [if_pos hoc, if_pos hop] at h ⊢
        exact opScan_ge s cs (i + 1) true
      · unfold opScan at h ⊢
        rw [if_pos hoc, if_neg hop, if_neg (by decide : ¬(false = true))]
          at h ⊢
        exact Nat.le_trans (Nat.le_succ (i + 1)) (ih (i + 1) h)
    · unfold opScan at h
      rw [if_neg hoc] at h
      simp at h

/-- Characterization of a failed operator scan: starting unmatched at offset
`i` (with the suffix of `s` from `i` as second argument), the scan reports
no match exactly when no length up to the operator-character run from `i` is
a known non-unary operator. -/
theorem opScan_false_iff (s : List Char) : ∀ (rest : List Char) (i : Nat),
    ((opScan s i rest false).2 = false ↔
      ∀ k, i < k → k ≤ i + (rest.takeWhile cIsOpChar).length →
        expr_op s k 0 = .OP_UNKNOWN) := by
  intro rest
  induction rest with
  | nil =>
    intro i
    simp only [opScan, List.takeWhile_nil, List.length_nil, Nat.add_zero]
    constructor
    · intro _ k h1 h2; omega
    · intro _; trivial
  | cons c cs ih =>
    intro i
    by_cases hoc : cIsOpChar c = true
    · have htw : ((c :: cs).takeWhile cIsOpChar).length =
          (cs.takeWhile cIsOpChar).length + 1 := by
        simp [List.takeWhile_cons, hoc]
      by_cases hop : expr_op s (i + 1) 0 = .OP_UNKNOWN
      · unfold opScan
        rw [if_pos hoc, if_neg (by simp [hop]),
          if_neg (by decide : ¬(false = true)), ih (i + 1), htw]
        constructor
        · intro H k h1 h2
          rcases Nat.eq_or_lt_of_le (Nat.succ_le_of_lt h1) with he | hl
          · rw [← he]; exact hop
          · exact H k hl (by omega)
        · intro H k h1 h2
          exact H k (by omega) (by omega)
      · unfold opScan
        rw [if_pos hoc, if_pos (by simp [hop]), opScan_true s cs (i + 1), htw]
        constructor
        · intro h; cases h
        · intro H
          exact absurd (H (i + 1) (Nat.lt_succ_self i) (by omega)) hop
    · have htw : ((c :: cs).takeWhile cIsOpChar).length = 0 := by
        simp [List.takeWhile_cons, hoc]
      unfold opScan
      rw [if_neg hoc, htw]
      constructor
      · intro _ k h1 h2; omega
      · intro _; trivial

/-- A single character is a known unary operator exactly when it is `-`, `!`
or `^` (the three one-character unary entries of the `OPS` table). -/
theorem expr_op_single_unary (c : Char) :
    expr_op [c] 1 1 = .OP_UNKNOWN ↔ (c ≠ '-' ∧ c ≠ '!' ∧ c ≠ '^') := by
  by_cases h1 : c = '-'
  · subst h1; decide
  · by_cases h2 : c = '!'
    · subst h2; decide
    · by_cases h3 : c = '^'
      · subst h3; decide
      · constructor
        · intro _; exact ⟨h1, h2, h3⟩
        · intro _
          have hb1 : (c == '-') = false := beq_eq_false_iff_ne.mpr h1
          have hb2 : (c == '!') = false := beq_eq_false_iff_ne.mpr h2
          have hb3 : (c == '^') = false := beq_eq_false_iff_ne.mpr h3
          simp [expr_op, OPS, List.find?, expr_is_unary, hb1, hb2, hb3]

/-- A scanned run never exceeds the input. -/
theorem takeWhile_len_le (p : Char → Bool) (l : List Char) :
    (l.takeWhile p).length ≤ l.length := by
  induction l with
  | nil => simp
  | cons c cs ih =>
    by_cases h : p c = true <;> simp [List.takeWhile_cons, h] <;> omega

/-- A first-variable character is also a variable character. -/
theorem firstvar_isvarchr {c : Char} (h : isfirstvarchr c = true) :
    isvarchr c = true := by
  simp only [isfirstvarchr, Bool.or_eq_true] at h
  simp only [isvarchr, Bool.or_eq_true]
  rcases h with h | h
  · exact Or.inl (Or.inl (Or.inl h))
  · exact Or.inl (Or.inl (Or.inr h))

/-- The tokenizer on a nonempty input, unfolded (a definitional equality,
used to steer the case analyses below). -/
theorem expr_next_token_cons (c : Char) (rest : List Char) (flags : Nat) :
    expr_next_token (c :: rest) flags =
      (if c = '#' then
        ((((c :: rest).takeWhile (fun x => x != '\n')).length : Int), flags)
      else if c = '\n' then
        (if flags &&& EXPR_TOP ≠ 0 then
          (if ((c :: rest).takeWhile cIsSpace).length = (c :: rest).length ∨
              (c :: rest).getD ((c :: rest).takeWhile cIsSpace).length ' '
                = ')' then
            ((((c :: rest).takeWhile cIsSpace).length : Int),
              clearComma flags)
          else
            ((((c :: rest).takeWhile cIsSpace).length : Int),
              EXPR_TNUMBER ||| EXPR_TWORD ||| EXPR_TOPEN ||| EXPR_COMMA))
        else ((((c :: rest).takeWhile cIsSpace).length : Int), flags))
      else if cIsSpace c then
        ((((c :: rest).takeWhile
          (fun x => cIsSpace x && x != '\n')).length : Int), flags)
      else if cIsDigit c then
        (if flags &&& EXPR_TNUMBER = 0 then (-1, flags)
        else ((((c :: rest).takeWhile cIsNumChar).length : Int),
          EXPR_TOP ||| EXPR_TCLOSE))
      else if isfirstvarchr c then
        (if flags &&& EXPR_TWORD = 0 then (-2, flags)
        else ((((c :: rest).takeWhile isvarchr).length : Int),
          EXPR_TOP ||| EXPR_TOPEN ||| EXPR_TCLOSE))
      else if c = '(' ∨ c = ')' then
        (if c = '(' ∧ flags &&& EXPR_TOPEN ≠ 0 then
          (1, EXPR_TNUMBER ||| EXPR_TWORD ||| EXPR_TOPEN ||| EXPR_TCLOSE)
        else if c = ')' ∧ flags &&& EXPR_TCLOSE ≠ 0 then
          (1, EXPR_TOP ||| EXPR_TCLOSE)
        else (-3, flags))
      else if flags &&& EXPR_TOP = 0 then
        (if expr_op [c] 1 1 = ExprType.OP_UNKNOWN then (-4, flags)
        else (1, EXPR_TNUMBER ||| EXPR_TWORD ||| EXPR_TOPEN ||| EXPR_UNARY))
      else
        (if (!(opScan (c :: rest) 0 (c :: rest) false).2) = true then
          (-5, flags)
        else (((opScan (c :: rest) 0 (c :: rest) false).1 : Int),
          EXPR_TNUMBER ||| EXPR_TWORD ||| EXPR_TOPEN))) := rfl

/-- Case analysis of `expr_next_token` on a nonempty input: the result is
never 0, never exceeds the input length, and every negative result is one of
the five error codes tagged with its triggering condition. -/
theorem tokenizer_cases (c : Char) (rest : List Char) (flags : Nat) :
    (expr_next_token (c :: rest) flags).1 ≠ 0 ∧
    (expr_next_token (c :: rest) flags).1 ≤ ((c :: rest).length : Int) ∧
    ((expr_next_token (c :: rest) flags).1 < 0 →
      ((expr_next_token (c :: rest) flags).1 = -1 ∧ cIsDigit c = true ∧
        flags &&& EXPR_TNUMBER = 0) ∨
      ((expr_next_token (c :: rest) flags).1 = -2 ∧ isfirstvarchr c = true ∧
        flags &&& EXPR_TWORD = 0) ∨
      ((expr_next_token (c :: rest) flags).1 = -3 ∧
        ((c = '(' ∧ flags &&& EXPR_TOPEN = 0) ∨
         (c = ')' ∧ flags &&& EXPR_TCLOSE = 0))) ∨
      ((expr_next_token (c :: rest) flags).1 = -4 ∧ isOtherChar c = true ∧
        flags &&& EXPR_TOP = 0 ∧ c ≠ '-' ∧ c ≠ '!' ∧ c ≠ '^') ∨
      ((expr_next_token (c :: rest) flags).1 = -5 ∧ isOtherChar c = true ∧
        flags &&& EXPR_TOP ≠ 0 ∧
        ∀ k, 1 ≤ k → k ≤ ((c :: rest).takeWhile cIsOpChar).length →
          expr_op (c :: rest) k 0 = .OP_UNKNOWN)) := by
  by_cases hq1 : c = '#'
  · subst hq1
    have hr1 : (expr_next_token ('#' :: rest) flags).1 =
        (((('#' :: rest).takeWhile (fun x => x != '\n')).length : Nat) : Int) := by
      rw [expr_next_token_cons]
      rw [if_pos rfl]
    have hpos := takeWhile_len_pos (p := fun x => x != '\n') rest
      (by decide : (('#' : Char) != '\n') = true)
    have hle := takeWhile_len_le (fun x => x != '\n') ('#' :: rest)
    rw [hr1]
    refine ⟨by omega, by omega, fun hneg => absurd hneg (by omega)⟩
  · by_cases hq2 : c = '\n'
    · subst hq2
      have hr1 : (expr_next_token ('\n' :: rest) flags).1 =
          (((('\n' :: rest).takeWhile cIsSpace).length : Nat) : Int) := by
        rw [expr_next_token_cons]
        rw [if_neg (by decide), if_pos rfl]
        split
        · split <;> rfl
        · rfl
      have hpos := takeWhile_len_pos (p := cIsSpace) rest
        (by decide : cIsSpace '\n' = true)
      have hle := takeWhile_len_le cIsSpace ('\n' :: rest)
      rw [hr1]
      refine ⟨by omega, by omega, fun hneg => absurd hneg (by omega)⟩
    · by_cases hq3 : cIsSpace c = true
      · have hr1 : (expr_next_token (c :: rest) flags).1 =
            ((((c :: rest).takeWhile
              (fun x => cIsSpace x && x != '\n')).length : Nat) : Int) := by
          rw [expr_next_token_cons]
          rw [if_neg hq1, if_neg hq2, if_pos hq3]
        have hpos := takeWhile_len_pos
          (p := fun x => cIsSpace x && x != '\n') rest
          (by simp [hq3, hq2] :
            (cIsSpace c && (c != '\n')) = true)
        have hle := takeWhile_len_le
          (fun x => cIsSpace x && x != '\n') (c :: rest)
        rw [hr1]
        refine ⟨by omega, by omega, fun hneg => absurd hneg (by omega)⟩
      · by_cases hq4 : cIsDigit c = true
        · by_cases hfn : flags &&& EXPR_TNUMBER = 0
          · have hr1 : (expr_next_token (c :: rest) flags).1 = -1 := by
              rw [expr_next_token_cons]
              rw [if_neg hq1, if_neg hq2, if_neg hq3, if_pos hq4, if_pos hfn]
            rw [hr1]
            exact ⟨by decide, by simp [List.length_cons] <;> omega,
              fun _ => Or.inl ⟨rfl, hq4, hfn⟩⟩
          · have hr1 : (expr_next_token (c :: rest) flags).1 =
                ((((c :: rest).takeWhile cIsNumChar).length : Nat) : Int) := by
              rw [expr_next_token_cons]
              rw [if_neg hq1, if_neg hq2, if_neg hq3, if_pos hq4, if_neg hfn]
            have hpos := takeWhile_len_pos (p := cIsNumChar) rest
              (by simp [cIsNumChar, hq4] : cIsNumChar c = true)
            have hle := takeWhile_len_le cIsNumChar (c :: rest)
            rw [hr1]
            refine ⟨by omega, by omega, fun hneg => absurd hneg (by omega)⟩
        · by_cases hq5 : isfirstvarchr c = true
          · by_cases hfw : flags &&& EXPR_TWORD = 0
            · have hr1 : (expr_next_token (c :: rest) flags).1 = -2 := by
                rw [expr_next_token_cons]
                rw [if_neg hq1, if_neg hq2, if_neg hq3, if_neg hq4,
                  if_pos hq5, if_pos hfw]
              rw [hr1]
              exact ⟨by decide, by simp [List.length_cons] <;> omega,
                fun _ => Or.inr (Or.inl ⟨rfl, hq5, hfw⟩)⟩
            · have hr1 : (expr_next_token (c :: rest) flags).1 =
                  ((((c :: rest).takeWhile isvarchr).length : Nat) : Int) := by
                rw [expr_next_token_cons]
                rw [if_neg hq1, if_neg hq2, if_neg hq3, if_neg hq4,
                  if_pos hq5, if_neg hfw]
              have hpos := takeWhile_len_pos (p := isvarchr) rest
                (firstvar_isvarchr hq5)
              have hle := takeWhile_len_le isvarchr (c :: rest)
              rw [hr1]
              refine ⟨by omega, by omega, fun hneg => absurd hneg (by omega)⟩
          · by_cases hq6 : c = '(' ∨ c = ')'
            · rcases hq6 with hcc | hcc
              · subst hcc
                by_cases hfo : flags &&& EXPR_TOPEN ≠ 0
                · have hr1 : (expr_next_token ('(' :: rest) flags).1 = 1 := by
                    rw [expr_next_token_cons]
                    rw [if_neg hq1, if_neg hq2, if_neg hq3, if_neg hq4,
                      if_neg hq5, if_pos (Or.inl rfl), if_pos ⟨rfl, hfo⟩]
                  rw [hr1]
                  exact ⟨by decide, by simp [List.length_cons] <;> omega,
                    fun hneg => absurd hneg (by omega)⟩
                · have hr1 : (expr_next_token ('(' :: rest) flags).1 = -3 := by
                    rw [expr_next_token_cons]
                    rw [if_neg hq1, if_neg hq2, if_neg hq3, if_neg hq4,
                      if_neg hq5, if_pos (Or.inl rfl),
                      if_neg (fun hh => hfo hh.2),
                      if_neg (fun hh => absurd hh.1 (by decide))]
                  rw [hr1]
                  exact ⟨by decide, by simp [List.length_cons] <;> omega,
                    fun _ => Or.inr (Or.inr (Or.inl ⟨rfl,
                      Or.inl ⟨rfl, by omega⟩⟩))⟩
              · subst hcc
                by_cases hfc : flags &&& EXPR_TCLOSE ≠ 0
                · have hr1 : (expr_next_token (')' :: rest) flags).1 = 1 := by
                    rw [expr_next_token_cons]
                    rw [if_neg hq1, if_neg hq2, if_neg hq3, if_neg hq4,
                      if_neg hq5, if_pos (Or.inr rfl),
                      if_neg (fun hh => absurd hh.1 (by decide)),
                      if_pos ⟨rfl, hfc⟩]
                  rw [hr1]
                  exact ⟨by decide, by simp [List.length_cons] <;> omega,
                    fun hneg => absurd hneg (by omega)⟩
                · have hr1 : (expr_next_token (')' :: rest) flags).1 = -3 := by
                    rw [expr_next_token_cons]
                    rw [if_neg hq1, if_neg hq2, if_neg hq3, if_neg hq4,
                      if_neg hq5, if_pos (Or.inr rfl),
                      if_neg (fun hh => absurd hh.1 (by decide)),
                      if_neg (fun hh => hfc hh.2)]
                  rw [hr1]
                  exact ⟨by decide, by simp [List.length_cons] <;> omega,
                    fun _ => Or.inr (Or.inr (Or.inl ⟨rfl,
                      Or.inr ⟨rfl, by omega⟩⟩))⟩
            · have hoc : isOtherChar c = true := by
                simp only [isOtherChar, Bool.and_eq_true, bne_iff_ne, ne_eq,
                  Bool.not_eq_true']
                push_neg at hq6
                exact ⟨⟨⟨⟨⟨⟨hq1, hq2⟩, Bool.not_eq_true _ ▸ hq3⟩,
                  Bool.not_eq_true _ ▸ hq4⟩, Bool.not_eq_true _ ▸ hq5⟩,
                  hq6.1⟩, hq6.2⟩
              by_cases hft : flags &&& EXPR_TOP = 0
              · by_cases hop : expr_op [c] 1 1 = .OP_UNKNOWN
                · have hr1 : (expr_next_token (c :: rest) flags).1 = -4 := by
                    rw [expr_next_token_cons]
                    rw [if_neg hq1, if_neg hq2, if_neg hq3, if_neg hq4,
                      if_neg hq5, if_neg hq6, if_pos hft, if_pos hop]
                  rw [hr1]
                  have hnc := (expr_op_single_unary c).mp hop
                  exact ⟨by decide, by simp [List.length_cons] <;> omega,
                    fun _ => Or.inr (Or.inr (Or.inr (Or.inl
                      ⟨rfl, hoc, hft, hnc.1, hnc.2.1, hnc.2.2⟩)))⟩
                · have hr1 : (expr_next_token (c :: rest) flags).1 = 1 := by
                    rw [expr_next_token_cons]
                    rw [if_neg hq1, if_neg hq2, if_neg hq3, if_neg hq4,
                      if_neg hq5, if_neg hq6, if_pos hft, if_neg hop]
                  rw [hr1]
                  exact ⟨by decide, by simp [List.length_cons] <;> omega,
                    fun hneg => absurd hneg (by omega)⟩
              · by_cases hfound :
                    (opScan (c :: rest) 0 (c :: rest) false).2 = false
                · have hr1 : (expr_next_token (c :: rest) flags).1 = -5 := by
                    rw [expr_next_token_cons]
                    rw [if_neg hq1, if_neg hq2, if_neg hq3, if_neg hq4,
                      if_neg hq5, if_neg hq6, if_neg hft,
                      if_pos (by rw [hfound]; rfl)]
                  rw [hr1]
                  have hall := (opScan_false_iff (c :: rest) (c :: rest) 0).mp
                    hfound
                  exact ⟨by decide, by simp [List.length_cons] <;> omega,
                    fun _ => Or.inr (Or.inr (Or.inr (Or.inr
                      ⟨rfl, hoc, hft,
                        fun k hk1 hk2 => hall k (by omega) (by omega)⟩)))⟩
                · have hfT : (opScan (c :: rest) 0 (c :: rest) false).2 =
                      true := by
                    cases hx : (opScan (c :: rest) 0 (c :: rest) false).2
                    · exact absurd hx hfound
                    · rfl
                  have hr1 : (expr_next_token (c :: rest) flags).1 =
                      (((opScan (c :: rest) 0 (c :: rest) false).1 : Nat) :
                        Int) := by
                    rw [expr_next_token_cons]
                    rw [if_neg hq1, if_neg hq2, if_neg hq3, if_neg hq4,
                      if_neg hq5, if_neg hq6, if_neg hft,
                      if_neg (by rw [hfT]; decide)]
                  have hmv := opScan_false_moved (c :: rest) (c :: rest) 0 hfT
                  have hsl := opScan_le (c :: rest) (c :: rest) 0 false
                  rw [hr1]
                  refine ⟨by omega, by omega,
                    fun hneg => absurd hneg (by omega)⟩

/-- Splitting `isOtherChar` into the seven excluded classes. -/
theorem otherChar_components {c : Char} (h : isOtherChar c = true) :
    c ≠ '#' ∧ c ≠ '\n' ∧ cIsSpace c = false ∧ cIsDigit c = false ∧
    isfirstvarchr c = false ∧ c ≠ '(' ∧ c ≠ ')' := by
  simp only [isOtherChar, Bool.and_eq_true, bne_iff_ne, Bool.not_eq_true']
    at h
  exact ⟨h.1.1.1.1.1.1, h.1.1.1.1.1.2, h.1.1.1.1.2, h.1.1.1.2, h.1.1.2,
    h.1.2, h.2⟩

/-- C8: `expr_next_token` returns 0 exactly on end of input; each of the
five documented lexical-error situations produces its negative code — a
digit with numbers not legal next gives -1, a word-start character with
words not legal -2, `(` or `)` with the corresponding bit clear -3, an
expected operand whose character is not a one-character unary operator -4,
and no known operator prefix matching -5; conversely every negative result
is exactly one of these five codes together with its triggering condition;
and a successful (positive) result never exceeds the input length. -/
theorem tokenizer_error_codes (s : List Char) (flags : Nat) :
    ((expr_next_token s flags).1 = 0 ↔ s = []) ∧
    (∀ c rest, s = c :: rest →
      (cIsDigit c = true → flags &&& EXPR_TNUMBER = 0 →
        (expr_next_token s flags).1 = -1) ∧
      (isfirstvarchr c = true → flags &&& EXPR_TWORD = 0 →
        (expr_next_token s flags).1 = -2) ∧
      (c = '(' → flags &&& EXPR_TOPEN = 0 →
        (expr_next_token s flags).1 = -3) ∧
      (c = ')' → flags &&& EXPR_TCLOSE = 0 →
        (expr_next_token s flags).1 = -3) ∧
      (isOtherChar c = true → flags &&& EXPR_TOP = 0 →
        c ≠ '-' → c ≠ '!' → c ≠ '^' →
        (expr_next_token s flags).1 = -4) ∧
      (isOtherChar c = true → flags &&& EXPR_TOP ≠ 0 →
        (∀ k, 1 ≤ k → k ≤ (s.takeWhile cIsOpChar).length →
          expr_op s k 0 = .OP_UNKNOWN) →
        (expr_next_token s flags).1 = -5)) ∧
    ((expr_next_token s flags).1 < 0 →
      ∃ c rest, s = c :: rest ∧
        (((expr_next_token s flags).1 = -1 ∧ cIsDigit c = true ∧
            flags &&& EXPR_TNUMBER = 0) ∨
         ((expr_next_token s flags).1 = -2 ∧ isfirstvarchr c = true ∧
            flags &&& EXPR_TWORD = 0) ∨
         ((expr_next_token s flags).1 = -3 ∧
            ((c = '(' ∧ flags &&& EXPR_TOPEN = 0) ∨
             (c = ')' ∧ flags &&& EXPR_TCLOSE = 0))) ∨
         ((expr_next_token s flags).1 = -4 ∧ isOtherChar c = true ∧
            flags &&& EXPR_TOP = 0 ∧ c ≠ '-' ∧ c ≠ '!' ∧ c ≠ '^') ∨
         ((expr_next_token s flags).1 = -5 ∧ isOtherChar c = true ∧
            flags &&& EXPR_TOP ≠ 0 ∧
            ∀ k, 1 ≤ k → k ≤ (s.takeWhile cIsOpChar).length →
              expr_op s k 0 = .OP_UNKNOWN))) ∧
    (0 < (expr_next_token s flags).1 →
      (expr_next_token s flags).1 ≤ (s.length : Int)) := by
  refine ⟨?_, ?_, ?_, ?_⟩
  · cases s with
    | nil => simp [expr_next_token]
    | cons c rest =>
      have h0 := (tokenizer_cases c rest flags).1
      constructor
      · intro h; exact absurd h h0
      · intro h; exact absurd h (by simp)
  · intro c rest hs
    subst hs
    refine ⟨?_, ?_, ?_, ?_, ?_, ?_⟩
    · intro hd hf
      rw [expr_next_token_cons, if_neg (digit_not_hash hd),
        if_neg (digit_not_newline hd), if_neg (by simp [digit_not_space hd]),
        if_pos hd, if_pos hf]
    · intro hv hf
      rw [expr_next_token_cons, if_neg (firstvar_not_hash hv),
        if_neg (firstvar_not_newline hv),
        if_neg (by simp [firstvar_not_space hv]),
        if_neg (by simp [firstvar_not_digit hv]), if_pos hv, if_pos hf]
    · intro hc hf
      subst hc
      rw [expr_next_token_cons, if_neg (by decide), if_neg (by decide),
        if_neg (by decide), if_neg (by decide), if_neg (by decide),
        if_pos (Or.inl rfl), if_neg (fun hh => hh.2 hf),
        if_neg (fun hh => absurd hh.1 (by decide))]
    · intro hc hf
      subst hc
      rw [expr_next_token_cons, if_neg (by decide), if_neg (by decide),
        if_neg (by decide), if_neg (by decide), if_neg (by decide),
        if_pos (Or.inr rfl), if_neg (fun hh => absurd hh.1 (by decide)),
        if_neg (fun hh => hh.2 hf)]
    · intro ho ht h1 h2 h3
      obtain ⟨o1, o2, o3, o4, o5, o6, o7⟩ := otherChar_components ho
      rw [expr_next_token_cons, if_neg o1, if_neg o2, if_neg (by simp [o3]),
        if_neg (by simp [o4]), if_neg (by simp [o5]),
        if_neg (fun hh => hh.elim o6 o7), if_pos ht,
        if_pos ((expr_op_single_unary c).mpr ⟨h1, h2, h3⟩)]
    · intro ho ht hall
      obtain ⟨o1, o2, o3, o4, o5, o6, o7⟩ := otherChar_components ho
      have hfound : (opScan (c :: rest) 0 (c :: rest) false).2 = false :=
        (opScan_false_iff (c :: rest) (c :: rest) 0).mpr
          (fun k hk1 hk2 => hall k (by omega) (by omega))
      rw [expr_next_token_cons, if_neg o1, if_neg o2, if_neg (by simp [o3]),
        if_neg (by simp [o4]), if_neg (by simp [o5]),
        if_neg (fun hh => hh.elim o6 o7), if_neg ht,
        if_pos (by rw [hfound]; rfl)]
  · cases s with
    | nil => intro h; rw [show expr_next_token [] flags = (0, flags) from rfl] at h; simp at h
    | cons c rest =>
      intro hneg
      exact ⟨c, rest, rfl, (tokenizer_cases c rest flags).2.2 hneg⟩
  · cases s with
    | nil => intro h; rw [show expr_next_token [] flags = (0, flags) from rfl] at h; simp at h
    | cons c rest =>
      intro _
      exact (tokenizer_cases c rest flags).2.1

/-- C8 witness: after a number token (flags `EXPR_TOP ||| EXPR_TCLOSE`, so
numbers are not legal), a digit yields -1. -/
theorem tokenizer_error_codes_witness :
    (expr_next_token ['1'] (EXPR_TOP ||| EXPR_TCLOSE)).1 = -1 :=
  (((tokenizer_error_codes ['1'] (EXPR_TOP ||| EXPR_TCLOSE)).2.1 '1' []
    rfl).1) (by decide) (by decide)

end MathEX
